import Mathlib

/-!
Verification development for the Transaction Deduplication & Double-Entry
Ledger Posting Engine (src/app.py, src/database/models.py).

The Python code is shallowly embedded: pandas rows become the `Row`
structure (a missing / NaN field is `Option.none`), the SQLAlchemy session
becomes an explicit `DB` state threaded through each operation, `Decimal`
and float amounts become `ℚ`, and `datetime.date` becomes the `Date`
structure.  Library functions used by the code (`str.lower`, `str.strip`,
`str.replace`, `pd.to_datetime`, `hashlib.md5`) are modelled by executable
Lean functions of their documented behaviour, as noted at each definition.
-/

/-- Lower-casing as used by `str.lower()`; modelled on the ASCII range,
which covers every string the ledger flows manipulate. -/
def pyLower (s : String) : String := String.mk (s.data.map Char.toLower)

/-- Drop leading and trailing whitespace from a character list, as
`str.strip()` does. -/
def stripChars (l : List Char) : List Char :=
  ((l.dropWhile Char.isWhitespace).reverse.dropWhile Char.isWhitespace).reverse

/-- `str.strip()`. -/
def pyStrip (s : String) : String := String.mk (stripChars s.data)

/-- `str.replace(' ', '')`: removes space characters only; other
whitespace (tab, newline) is kept. -/
def removeSpaces (s : String) : String :=
  String.mk (s.data.filter (fun c => !(c == ' ')))

/-- The text normalization applied to party names and descriptions in
`create_transaction_signature`: `.lower().strip().replace(' ', '')`. -/
def normalizeText (s : String) : String := removeSpaces (pyStrip (pyLower s))

/-- `s[:n]`, Python string slicing. -/
def sliceTo (n : Nat) (s : String) : String := String.mk (s.data.take n)

/-- `hashlib.md5(x).hexdigest()`, modelled as an injective function of its
input.  The development relies only on equality of digests coinciding with
equality of the hashed data, which is the practical collision-freeness the
code assumes of MD5. -/
def md5 (s : String) : String := s

/-- Two-digit zero padding, as in `'%02d'`. -/
def pad2 (n : Nat) : String := if n < 10 then "0" ++ toString n else toString n

/-- Four-digit zero padding for years. -/
def pad4 (n : Nat) : String :=
  if n < 10 then "000" ++ toString n
  else if n < 100 then "00" ++ toString n
  else if n < 1000 then "0" ++ toString n
  else toString n

/-- A calendar date, as `datetime.date`. -/
structure Date where
  year : Int
  month : Nat
  day : Nat
deriving DecidableEq

/-- `str(d)` for a `datetime.date`: ISO `YYYY-MM-DD`. -/
def renderDate (d : Date) : String :=
  pad4 d.year.toNat ++ "-" ++ pad2 d.month ++ "-" ++ pad2 d.day

/-- Python date comparison: lexicographic on (year, month, day). -/
def Date.le (a b : Date) : Bool :=
  (a.year < b.year) ||
    (a.year == b.year &&
      ((a.month < b.month) || (a.month == b.month && a.day ≤ b.day)))

/-- Value of a decimal digit character. -/
def digitVal (c : Char) : Option Nat :=
  if c.isDigit then some (c.toNat - 48) else none

/-- `pd.to_datetime(s).date()` modelled on the ISO `YYYY-MM-DD` strings the
ledger flows produce (the repository's CSV paths render dates with
`strftime('%Y-%m-%d')`); any other shape is a parse failure.  The
day-of-month upper bound is simplified to 31. -/
def parseIsoDate (s : String) : Option Date :=
  match s.data with
  | [y1, y2, y3, y4, h1, m1, m2, h2, d1, d2] =>
    if h1 = '-' ∧ h2 = '-' then
      match digitVal y1, digitVal y2, digitVal y3, digitVal y4,
            digitVal m1, digitVal m2, digitVal d1, digitVal d2 with
      | some a, some b, some c, some d, some e, some f, some g, some h =>
        let mo := e * 10 + f
        let da := g * 10 + h
        if 1 ≤ mo ∧ mo ≤ 12 ∧ 1 ≤ da ∧ da ≤ 31 then
          some ⟨Int.ofNat (a * 1000 + b * 100 + c * 10 + d), mo, da⟩
        else none
      | _, _, _, _, _, _, _, _ => none
    else none
  | _ => none

/-- Fixed two-decimal rendering, `f"{float(x):.2f}"`.  Ties are rounded
with Mathlib's `round`; no claim in this development depends on the tie
behaviour, since signatures always format the same stored value on both
sides of each comparison. -/
def fmt2 (q : ℚ) : String :=
  let c : Int := round (q * 100)
  let a : Int := if c < 0 then -c else c
  let signPart : String := if c < 0 then "-" else ""
  signPart ++ toString (a / 100) ++ "." ++ pad2 (a % 100).toNat

/-- One CSV transaction record as the pandas row seen by the engine.  A
`none` field models a missing / NaN cell (`pd.notna` is false). -/
structure Row where
  date : Option String
  client : Option String
  description : Option String
  amount : Option ℚ
  type : Option String
  gst_category : Option String
deriving DecidableEq

/-- `str(field)` for a possibly-missing pandas cell: `str(nan)` is
`"nan"`. -/
def strField (o : Option String) : String :=
  match o with
  | some s => s
  | none => "nan"

/-- Row amount as the posting code consumes it; `clean_dataframe` coerces
the amount column to numeric and fills missing values with 0 before any
save, so a missing amount is modelled as 0. -/
def rowAmount (r : Row) : ℚ :=
  match r.amount with
  | some q => q
  | none => 0

/-- `str(row.get('gst_category', ''))`. -/
def gstField (r : Row) : String :=
  match r.gst_category with
  | some g => g
  | none => ""

/-- The `signature_data` string built by `create_transaction_signature`
(src/app.py lines 51-69): date sliced to 10 characters, normalized client
and description, amount at two decimals, lower-cased stripped type, joined
with `|`. -/
def signatureData (r : Row) : String :=
  let dateStr := match r.date with
                 | some s => sliceTo 10 s
                 | none => ""
  let clientN := match r.client with
                 | some s => normalizeText s
                 | none => ""
  let descN := match r.description with
               | some s => normalizeText s
               | none => ""
  let amountN := match r.amount with
                 | some q => fmt2 q
                 | none => "0.00"
  let typeN := match r.type with
               | some s => pyStrip (pyLower s)
               | none => ""
  dateStr ++ "|" ++ clientN ++ "|" ++ descN ++ "|" ++ amountN ++ "|" ++ typeN

/-- `create_transaction_signature` (src/app.py lines 51-70). -/
def create_transaction_signature (r : Row) : String := md5 (signatureData r)

/-- Account classes (src/database/models.py `AccountType`). -/
inductive AccountType where
  | asset
  | liability
  | equity
  | income
  | expense
deriving DecidableEq

/-- Journal entry sources (src/database/models.py `EntrySourceType`). -/
inductive EntrySourceType where
  | manual
  | csv_import
  | ai_suggested
  | system_generated
deriving DecidableEq

/-- A `chart_of_accounts` row (src/database/models.py `ChartOfAccount`),
restricted to the fields the engine reads or writes.  UUIDs are modelled
by naturals drawn from a fresh-id counter. -/
structure ChartOfAccount where
  id : Nat
  business_id : Nat
  account_code : String
  account_name : String
  account_type : AccountType
  is_system_account : Bool
  is_active : Bool
deriving DecidableEq

/-- A `clients` row (src/database/models.py `Client`), restricted to the
fields the engine reads or writes. -/
structure Client where
  id : Nat
  business_id : Nat
  client_name : String
  client_type : String
  is_active : Bool
deriving DecidableEq

/-- A `journal_entries` row (src/database/models.py `JournalEntry`),
restricted to the fields the engine reads or writes; timestamp metadata
(`posted_at`, `created_at`, `created_by`) is not modelled. -/
structure JournalEntry where
  id : Nat
  business_id : Nat
  reference_number : String
  entry_date : Date
  description : String
  source_type : EntrySourceType
  is_posted : Bool
deriving DecidableEq

/-- A `journal_entry_lines` row (src/database/models.py
`JournalEntryLine`). -/
structure JournalEntryLine where
  journal_entry_id : Nat
  account_id : Nat
  client_id : Option Nat
  line_number : Nat
  debit_amount : ℚ
  credit_amount : ℚ
  description : String
  gst_category : String
deriving DecidableEq

/-- The persistent store seen through one SQLAlchemy session, with a
fresh-id counter standing for UUID generation: every id handed out is the
current `nextId`, which is then incremented. -/
structure DB where
  accounts : List ChartOfAccount
  clients : List Client
  entries : List JournalEntry
  lines : List JournalEntryLine
  nextId : Nat
deriving DecidableEq

/-- `session.query(Client).filter_by(id=cid).first()`, used to resolve a
line's `client` relationship. -/
def findClientById (db : DB) (cid : Nat) : Option Client :=
  db.clients.find? (fun c => c.id == cid)

/-- The `account_type` of a line's `account` relationship.  A dangling
`account_id` yields `none`; the foreign-key constraints of the store keep
that case out of every reachable state. -/
def accountTypeOf (db : DB) (aid : Nat) : Option AccountType :=
  (db.accounts.find? (fun a => a.id == aid)).map (fun a => a.account_type)

/-- One iteration of the loop inside `get_or_create_default_accounts`
(src/app.py lines 83-101): look the account up by `(business_id,
account_code)` and insert it if absent. -/
def provisionAccount (bid : Nat) (code name : String) (ty : AccountType)
    (db : DB) : ChartOfAccount × DB :=
  match db.accounts.find? (fun a => a.business_id == bid && a.account_code == code) with
  | some a => (a, db)
  | none =>
    let a : ChartOfAccount :=
      { id := db.nextId, business_id := bid, account_code := code,
        account_name := name, account_type := ty,
        is_system_account := true, is_active := true }
    (a, { db with accounts := db.accounts ++ [a], nextId := db.nextId + 1 })

/-- `get_or_create_default_accounts` (src/app.py lines 73-103): the loop
over the four-element `default_accounts` literal, unrolled. -/
def get_or_create_default_accounts (bid : Nat) (db : DB) :
    List (String × ChartOfAccount) × DB :=
  let p1 := provisionAccount bid "1000" "Bank Account" AccountType.asset db
  let p2 := provisionAccount bid "4000" "Revenue" AccountType.income p1.2
  let p3 := provisionAccount bid "5000" "Expenses" AccountType.expense p2.2
  let p4 := provisionAccount bid "1200" "Accounts Receivable" AccountType.asset p3.2
  ([("Bank Account", p1.1), ("Revenue", p2.1),
    ("Expenses", p3.1), ("Accounts Receivable", p4.1)], p4.2)

/-- Dictionary access `accounts[name]` on the map returned by
`get_or_create_default_accounts`. -/
def lookupAccount (accs : List (String × ChartOfAccount)) (name : String) :
    Option ChartOfAccount :=
  (accs.find? (fun p => p.1 == name)).map (fun p => p.2)

/-- `get_or_create_client` (src/app.py lines 106-124): exact-match lookup
on `(business_id, client_name, is_active)`, inserting a `"customer"`-typed
row on miss. -/
def get_or_create_client (client_name : String) (bid : Nat) (db : DB) :
    Client × DB :=
  match db.clients.find? (fun c =>
      c.business_id == bid && c.client_name == client_name && c.is_active) with
  | some c => (c, db)
  | none =>
    let c : Client :=
      { id := db.nextId, business_id := bid, client_name := client_name,
        client_type := "customer", is_active := true }
    (c, { db with clients := db.clients ++ [c], nextId := db.nextId + 1 })

/-- The `CSV-<timestamp>-<uuid4 fragment>` reference string; the timestamp
plus random suffix is modelled by the fresh-id counter, uniqueness being
the only property the code relies on. -/
def refNumber (n : Nat) : String := "CSV-" ++ toString n

/-- Appending one flushed journal entry header to the session. -/
def addEntry (db : DB) (e : JournalEntry) : DB :=
  { db with entries := db.entries ++ [e], nextId := db.nextId + 1 }

/-- Appending journal entry lines to the session. -/
def addLines (db : DB) (ls : List JournalEntryLine) : DB :=
  { db with lines := db.lines ++ ls }

/-- The `JournalEntry(...)` header built for one row (src/app.py lines
215-224). -/
def mkEntry (bid : Nat) (r : Row) (d : Date) (db : DB) : JournalEntry :=
  { id := db.nextId, business_id := bid,
    reference_number := refNumber db.nextId, entry_date := d,
    description := strField r.description,
    source_type := EntrySourceType.csv_import, is_posted := true }

/-- One `JournalEntryLine(...)` built for one row (src/app.py lines
235-282). -/
def mkLine (r : Row) (eid aid cid n : Nat) (debit credit : ℚ) :
    JournalEntryLine :=
  { journal_entry_id := eid, account_id := aid, client_id := some cid,
    line_number := n, debit_amount := debit, credit_amount := credit,
    description := strField r.description, gst_category := gstField r }

/-- The body of the per-row loop of `save_transactions_to_database`
(src/app.py lines 205-290).  The state is the session plus the running
`saved_count`.  A date that fails to parse raises inside the
`JournalEntry(...)` constructor call, so the per-row `except` skips the
row before any entry is added (the client row flushed just before
remains).  A failed `accounts[...]` dictionary access would likewise be
caught per-row, after the entry header was flushed. -/
def saveRow (bid : Nat) (accs : List (String × ChartOfAccount)) (r : Row)
    (st : DB × Nat) : DB × Nat :=
  let db := st.1
  let saved := st.2
  let gc := get_or_create_client (strField r.client) bid db
  let client := gc.1
  let db1 := gc.2
  match parseIsoDate (strField r.date) with
  | none => (db1, saved)
  | some d =>
    let entry := mkEntry bid r d db1
    let db2 := addEntry db1 entry
    let amount := rowAmount r
    let ttype := pyLower (strField r.type)
    let name1 := if ttype == "income" then "Bank Account" else "Expenses"
    let name2 := if ttype == "income" then "Revenue" else "Bank Account"
    match lookupAccount accs name1, lookupAccount accs name2 with
    | some a1, some a2 =>
      (addLines db2 [mkLine r entry.id a1.id client.id 1 amount 0,
                     mkLine r entry.id a2.id client.id 2 0 amount], saved + 1)
    | _, _ => (db2, saved)

/-- `save_transactions_to_database` (src/app.py lines 196-295): provision
the default accounts once, then run the per-row loop; returns the final
session state and `saved_count`.  What this function returns is the
UN-committed session: whether it persists is decided when the
`with db_session()` block exits, where the store's declared
`journal_entry_lines` check constraints gate the commit (and a violation
rolls the whole batch back) — that commit step is modelled separately by
`save_transactions_committed` below. -/
def save_transactions_to_database (rows : List Row) (bid : Nat) (db : DB) :
    DB × Nat :=
  let pa := get_or_create_default_accounts bid db
  rows.foldl (fun st r => saveRow bid pa.1 r st) (pa.2, 0)

/-- One step of the month-by-month walk-back in
`filter_duplicate_transactions` (src/app.py lines 136-141):
`replace(day=1)` followed by decrementing the month. -/
def monthBack (d : Date) : Date :=
  let d1 : Date := { d with day := 1 }
  if d1.month = 1 then { d1 with year := d1.year - 1, month := 12 }
  else { d1 with month := d1.month - 1 }

/-- The lookback bound `six_months_ago` (src/app.py lines 135-141):
`today.replace(day=1)` then six iterations of the walk-back. -/
def sixMonthsAgo (today : Date) : Date :=
  (List.range 6).foldl (fun d _ => monthBack d) { today with day := 1 }

/-- One iteration of the per-line reconstruction loop inside
`filter_duplicate_transactions` (src/app.py lines 156-172), threading
`(client_name, amount, transaction_type)`. -/
def reconStep (db : DB) (st : String × ℚ × String) (l : JournalEntryLine) :
    String × ℚ × String :=
  let cn := match l.client_id with
            | some cid =>
              match findClientById db cid with
              | some c => c.client_name
              | none => st.1
            | none => st.1
  if 0 < l.debit_amount then
    (cn, l.debit_amount,
      match accountTypeOf db l.account_id with
      | some AccountType.asset => "income"
      | _ => "expense")
  else if 0 < l.credit_amount then
    (cn, l.credit_amount,
      match accountTypeOf db l.account_id with
      | some AccountType.income => "income"
      | _ => "expense")
  else (cn, st.2.1, st.2.2)

/-- The lines of an entry, through the ORM `entry.lines` relationship, in
insertion order. -/
def entryLines (db : DB) (e : JournalEntry) : List JournalEntryLine :=
  db.lines.filter (fun l => l.journal_entry_id == e.id)

/-- The `signature_data` string rebuilt for a stored entry by
`filter_duplicate_transactions` (src/app.py lines 150-180). -/
def reconstructData (db : DB) (e : JournalEntry) : String :=
  let t := (entryLines db e).foldl (fun st l => reconStep db st l) ("", 0, "expense")
  let clientN := if t.1 == "" then "" else normalizeText t.1
  let descN := if e.description == "" then "" else normalizeText e.description
  let amountN := fmt2 t.2.1
  let typeN := pyStrip (pyLower t.2.2)
  renderDate e.entry_date ++ "|" ++ clientN ++ "|" ++ descN ++ "|" ++ amountN ++ "|" ++ typeN

/-- The signature recorded into `existing_signatures` for one stored
entry. -/
def reconstructSignature (db : DB) (e : JournalEntry) : String :=
  md5 (reconstructData db e)

/-- The `existing_signatures` collection built by
`filter_duplicate_transactions` (src/app.py lines 143-182): signatures of
every entry of the business whose `entry_date` is within the lookback
window.  The Python set is modelled as a list used only through
membership. -/
def existingSignatureList (bid : Nat) (db : DB) (today : Date) : List String :=
  (db.entries.filter (fun e =>
      e.business_id == bid && Date.le (sixMonthsAgo today) e.entry_date)).map
    (fun e => reconstructSignature db e)

/-- `filter_duplicate_transactions` (src/app.py lines 127-193).  The
result of the duplicate-lookup storage query is injected as an `Except`
value: `Except.error` is the query raising, which the surrounding
`except Exception` turns into the fail-open result `(rows, 0)`; the
function itself is total and never propagates the failure. -/
def filter_duplicate_transactions (rows : List Row) (bid : Nat) (db : DB)
    (today : Date) (query : Except String Unit) : List Row × Nat :=
  match query with
  | Except.error _ => (rows, 0)
  | Except.ok _ =>
    let sigs := existingSignatureList bid db today
    let newOnly := rows.filter (fun r => !(sigs.contains (create_transaction_signature r)))
    let duplicates := rows.filter (fun r => sigs.contains (create_transaction_signature r))
    (newOnly, duplicates.length)

/-- Well-formedness of a session state, as maintained by the engine and
the store's constraints: every id already handed out is below the
fresh-id counter, ids are unique per table, and line foreign keys point
below the counter. -/
def DB.WF (db : DB) : Prop :=
  (∀ a ∈ db.accounts, a.id < db.nextId) ∧
  (db.accounts.map (fun a => a.id)).Nodup ∧
  (∀ c ∈ db.clients, c.id < db.nextId) ∧
  (db.clients.map (fun c => c.id)).Nodup ∧
  (∀ e ∈ db.entries, e.id < db.nextId) ∧
  (∀ l ∈ db.lines, l.journal_entry_id < db.nextId ∧
    (∀ cid, l.client_id = some cid → cid < db.nextId))

/-- A state grows into another along the posting loop: accounts are
untouched, clients and lines are only appended with fresh ids, entries
are only appended, and the fresh-id counter never decreases. -/
def GrowsTo (db1 db2 : DB) : Prop :=
  db2.accounts = db1.accounts ∧
  (∃ xs, db2.clients = db1.clients ++ xs ∧ ∀ c ∈ xs, db1.nextId ≤ c.id) ∧
  (∃ es, db2.entries = db1.entries ++ es) ∧
  (∃ ys, db2.lines = db1.lines ++ ys ∧ ∀ l ∈ ys, db1.nextId ≤ l.journal_entry_id) ∧
  db1.nextId ≤ db2.nextId

/-- A structurally valid transaction record, the shape §6 of the spec says
the core may trust: all five fields present, the date the canonical ISO
rendering of a parseable calendar date, a positive amount, and the kind
one of the two cleaned literals. -/
def validRow (r : Row) : Bool :=
  match r.date, r.client, r.description, r.amount, r.type with
  | some s, some _, some _, some q, some t =>
    (match parseIsoDate s with
     | some d => renderDate d == s
     | none => false) &&
    decide (0 < q) && (t == "income" || t == "expense")
  | _, _, _, _, _ => false

/-- The record's date falls inside the duplicate-lookup window anchored at
`today`. -/
def inWindow (today : Date) (r : Row) : Bool :=
  match r.date with
  | some s =>
    match parseIsoDate s with
    | some d => Date.le (sixMonthsAgo today) d
    | none => false
  | none => false

/-- One account carries its system code's canonical class (or does not
belong to the business, or carries none of the posting codes). -/
def accountClause (bid : Nat) (a : ChartOfAccount) : Bool :=
  !(a.business_id == bid) ||
    ((!(a.account_code == "1000") || (a.account_type == AccountType.asset)) &&
     (!(a.account_code == "4000") || (a.account_type == AccountType.income)) &&
     (!(a.account_code == "5000") || (a.account_type == AccountType.expense)))

/-- Accounts carrying the engine's system codes for a business have the
classes the provisioner gives them — true of every state the application
itself produces, where those codes are only ever created by
`get_or_create_default_accounts`. -/
def canonicalAccounts (bid : Nat) (db : DB) : Bool :=
  db.accounts.all (accountClause bid)

/-- What the posting loop relies on about the provisioned account map: it
is the four-name literal, and the bank / revenue / expense accounts are
present in the store with their canonical classes. -/
def AccCtx (accs : List (String × ChartOfAccount)) (db : DB) : Prop :=
  ∃ bank rev exp recv,
    accs = [("Bank Account", bank), ("Revenue", rev),
            ("Expenses", exp), ("Accounts Receivable", recv)] ∧
    bank ∈ db.accounts ∧ rev ∈ db.accounts ∧ exp ∈ db.accounts ∧
    bank.account_type = AccountType.asset ∧
    rev.account_type = AccountType.income ∧
    exp.account_type = AccountType.expense

/-- Sum of the debit amounts of an entry's lines. -/
def entryDebitTotal (db : DB) (e : JournalEntry) : ℚ :=
  ((entryLines db e).map (fun l => l.debit_amount)).sum

/-- Sum of the credit amounts of an entry's lines. -/
def entryCreditTotal (db : DB) (e : JournalEntry) : ℚ :=
  ((entryLines db e).map (fun l => l.credit_amount)).sum

/-- Modelled from the spec: §4.1 step 2 asks that party and description
normalization "remove all internal whitespace"; this definition follows
those words (lower-case, then drop every whitespace character), to be
compared with the code's `normalizeText`, which removes only spaces. -/
def specNormalize (s : String) : String :=
  String.mk ((s.data.map Char.toLower).filter (fun c => !c.isWhitespace))

theorem find?_append {α : Type} (p : α → Bool) (l1 l2 : List α) :
    (l1 ++ l2).find? p =
      match l1.find? p with
      | some x => some x
      | none => l2.find? p := by
  induction l1 with
  | nil => simp
  | cons a l ih =>
    by_cases h : p a = true
    · simp [List.find?, h]
    · simp only [List.cons_append, List.find?, h]
      simpa using ih

theorem filter_append_right_nil {α : Type} (p : α → Bool) (l1 l2 : List α)
    (h : ∀ x ∈ l2, ¬ p x = true) : (l1 ++ l2).filter p = l1.filter p := by
  rw [List.filter_append]
  have : l2.filter p = [] := by
    rw [List.filter_eq_nil_iff]
    exact h
  rw [this, List.append_nil]

theorem find?_append_of_none {α : Type} {p : α → Bool} {l1 l2 : List α}
    (h : ∀ x ∈ l2, ¬ p x = true) : (l1 ++ l2).find? p = l1.find? p := by
  rw [find?_append]
  cases hf : l1.find? p with
  | some x => rfl
  | none =>
    simp only []
    rw [List.find?_eq_none]
    exact h

theorem growsTo_refl (db : DB) : GrowsTo db db := by
  refine ⟨rfl, ⟨[], by simp⟩, ⟨[], by simp⟩, ⟨[], by simp⟩, le_refl _⟩

theorem growsTo_trans {d1 d2 d3 : DB} (h1 : GrowsTo d1 d2) (h2 : GrowsTo d2 d3) :
    GrowsTo d1 d3 := by
  obtain ⟨ha1, ⟨xs1, hc1, hcid1⟩, ⟨es1, he1⟩, ⟨ys1, hl1, hlid1⟩, hn1⟩ := h1
  obtain ⟨ha2, ⟨xs2, hc2, hcid2⟩, ⟨es2, he2⟩, ⟨ys2, hl2, hlid2⟩, hn2⟩ := h2
  refine ⟨ha2.trans ha1, ⟨xs1 ++ xs2, ?_, ?_⟩, ⟨es1 ++ es2, ?_⟩,
    ⟨ys1 ++ ys2, ?_, ?_⟩, le_trans hn1 hn2⟩
  · rw [hc2, hc1, List.append_assoc]
  · intro c hc
    rcases List.mem_append.mp hc with h | h
    · exact hcid1 c h
    · exact le_trans hn1 (hcid2 c h)
  · rw [he2, he1, List.append_assoc]
  · rw [hl2, hl1, List.append_assoc]
  · intro l hl
    rcases List.mem_append.mp hl with h | h
    · exact hlid1 l h
    · exact le_trans hn1 (hlid2 l h)

theorem find?_of_mem_nodup {α : Type} (f : α → Nat) (l : List α) (a : α)
    (hnd : (l.map f).Nodup) (ha : a ∈ l) :
    l.find? (fun x => f x == f a) = some a := by
  induction l with
  | nil => cases ha
  | cons b l ih =>
    rcases List.mem_cons.mp ha with rfl | ha'
    · simp [List.find?]
    · have hnd' : f b ∉ l.map f ∧ (l.map f).Nodup := by
        rw [List.map_cons, List.nodup_cons] at hnd
        exact hnd
      have hne : (f b == f a) = false := by
        rw [beq_eq_false_iff_ne]
        intro hEq
        exact hnd'.1 (hEq ▸ List.mem_map_of_mem f ha')
      simp only [List.find?, hne]
      exact ih hnd'.2 ha'

theorem findClientById_stable {db1 db2 : DB} (h : GrowsTo db1 db2) (cid : Nat)
    (hlt : cid < db1.nextId) : findClientById db2 cid = findClientById db1 cid := by
  obtain ⟨_, ⟨xs, hc, hcid⟩, _, _, _⟩ := h
  unfold findClientById
  rw [hc]
  apply find?_append_of_none
  intro c hcmem
  simp only [beq_iff_eq]
  intro hEq
  have := hcid c hcmem
  omega

theorem accountTypeOf_stable {db1 db2 : DB} (h : GrowsTo db1 db2) (aid : Nat) :
    accountTypeOf db2 aid = accountTypeOf db1 aid := by
  unfold accountTypeOf
  rw [h.1]

theorem entryLines_stable {db1 db2 : DB} (h : GrowsTo db1 db2)
    (e : JournalEntry) (he : e.id < db1.nextId) :
    entryLines db2 e = entryLines db1 e := by
  obtain ⟨_, _, _, ⟨ys, hl, hlid⟩, _⟩ := h
  unfold entryLines
  rw [hl]
  apply filter_append_right_nil
  intro l hlmem
  simp only [beq_iff_eq]
  intro hEq
  have := hlid l hlmem
  omega

theorem reconStep_stable {db1 db2 : DB} (h : GrowsTo db1 db2)
    (l : JournalEntryLine)
    (hcid : ∀ cid, l.client_id = some cid → cid < db1.nextId) :
    ∀ st, reconStep db2 st l = reconStep db1 st l := by
  intro st
  cases hc : l.client_id with
  | none =>
    simp only [reconStep, hc, accountTypeOf_stable h]
  | some cid =>
    simp only [reconStep, hc, accountTypeOf_stable h,
      findClientById_stable h cid (hcid cid hc)]

theorem foldl_congr_mem {α β : Type} (f g : β → α → β) (l : List α)
    (h : ∀ a ∈ l, ∀ b, f b a = g b a) : ∀ b, l.foldl f b = l.foldl g b := by
  induction l with
  | nil => intro b; rfl
  | cons a l ih =>
    intro b
    simp only [List.foldl_cons]
    rw [h a (List.mem_cons_self a l) b]
    exact ih (fun x hx b' => h x (List.mem_cons_of_mem a hx) b') _

theorem reconstructSignature_stable {db1 db2 : DB} (hwf : DB.WF db1)
    (h : GrowsTo db1 db2) (e : JournalEntry) (he : e.id < db1.nextId) :
    reconstructSignature db2 e = reconstructSignature db1 e := by
  unfold reconstructSignature reconstructData
  rw [entryLines_stable h e he]
  have hfold : (entryLines db1 e).foldl (fun st l => reconStep db2 st l) ("", 0, "expense") =
      (entryLines db1 e).foldl (fun st l => reconStep db1 st l) ("", 0, "expense") := by
    apply foldl_congr_mem
    intro l hl b
    have hlmem : l ∈ db1.lines := List.mem_of_mem_filter hl
    exact reconStep_stable h l (hwf.2.2.2.2.2 l hlmem).2 b
  rw [hfold]

theorem nodup_map_append_fresh {α : Type} (f : α → Nat) (l : List α) (x : α)
    (n : Nat) (hnd : (l.map f).Nodup) (hlt : ∀ a ∈ l, f a < n) (hx : f x = n) :
    ((l ++ [x]).map f).Nodup := by
  rw [List.map_append, List.map_singleton]
  rw [List.nodup_append]
  refine ⟨hnd, List.nodup_singleton _, ?_⟩
  intro y hy
  simp only [List.mem_singleton]
  obtain ⟨a, ha, rfl⟩ := List.mem_map.mp hy
  have := hlt a ha
  omega


theorem wf_add_client {db : DB} (hwf : DB.WF db) (c : Client)
    (hc : c.id = db.nextId) :
    DB.WF { db with clients := db.clients ++ [c], nextId := db.nextId + 1 } := by
  obtain ⟨ha1, ha2, hc1, hc2, he1, hl1⟩ := hwf
  unfold DB.WF
  dsimp only
  refine ⟨?_, ha2, ?_, ?_, ?_, ?_⟩
  · intro a ha
    have := ha1 a ha
    omega
  · intro x hx
    rcases List.mem_append.mp hx with h | h
    · have := hc1 x h
      omega
    · rcases List.mem_singleton.mp h with rfl
      omega
  · exact nodup_map_append_fresh _ _ _ db.nextId hc2 hc1 hc
  · intro e he
    have := he1 e he
    omega
  · intro l hl
    obtain ⟨h1, h3⟩ := hl1 l hl
    refine ⟨by omega, ?_⟩
    intro cid hcid
    have := h3 cid hcid
    omega

theorem wf_add_account {db : DB} (hwf : DB.WF db) (a : ChartOfAccount)
    (ha : a.id = db.nextId) :
    DB.WF { db with accounts := db.accounts ++ [a], nextId := db.nextId + 1 } := by
  obtain ⟨ha1, ha2, hc1, hc2, he1, hl1⟩ := hwf
  unfold DB.WF
  dsimp only
  refine ⟨?_, ?_, ?_, hc2, ?_, ?_⟩
  · intro x hx
    rcases List.mem_append.mp hx with h | h
    · have := ha1 x h
      omega
    · rcases List.mem_singleton.mp h with rfl
      omega
  · exact nodup_map_append_fresh _ _ _ db.nextId ha2 ha1 ha
  · intro c hc
    have := hc1 c hc
    omega
  · intro e he
    have := he1 e he
    omega
  · intro l hl
    obtain ⟨h1, h3⟩ := hl1 l hl
    refine ⟨by omega, ?_⟩
    intro cid hcid
    have := h3 cid hcid
    omega

theorem wf_add_entry {db : DB} (hwf : DB.WF db) (e : JournalEntry)
    (he : e.id = db.nextId) :
    DB.WF { db with entries := db.entries ++ [e], nextId := db.nextId + 1 } := by
  obtain ⟨ha1, ha2, hc1, hc2, he1, hl1⟩ := hwf
  unfold DB.WF
  dsimp only
  refine ⟨?_, ha2, ?_, hc2, ?_, ?_⟩
  · intro a ha
    have := ha1 a ha
    omega
  · intro c hc
    have := hc1 c hc
    omega
  · intro x hx
    rcases List.mem_append.mp hx with h | h
    · have := he1 x h
      omega
    · rcases List.mem_singleton.mp h with rfl
      omega
  · intro l hl
    obtain ⟨h1, h3⟩ := hl1 l hl
    refine ⟨by omega, ?_⟩
    intro cid hcid
    have := h3 cid hcid
    omega

theorem wf_add_lines {db : DB} (hwf : DB.WF db) (ls : List JournalEntryLine)
    (h : ∀ l ∈ ls, l.journal_entry_id < db.nextId ∧
      ∀ cid, l.client_id = some cid → cid < db.nextId) :
    DB.WF { db with lines := db.lines ++ ls } := by
  obtain ⟨ha1, ha2, hc1, hc2, he1, hl1⟩ := hwf
  unfold DB.WF
  dsimp only
  refine ⟨ha1, ha2, hc1, hc2, he1, ?_⟩
  intro l hl
  rcases List.mem_append.mp hl with hmem | hmem
  · exact hl1 l hmem
  · exact h l hmem

theorem find?_append_left_none {α : Type} {p : α → Bool} {l1 l2 : List α}
    (h : ∀ x ∈ l1, ¬ p x = true) : (l1 ++ l2).find? p = l2.find? p := by
  rw [find?_append]
  have : l1.find? p = none := List.find?_eq_none.mpr h
  rw [this]

theorem gc_spec (name : String) (bid : Nat) (db : DB) :
    (get_or_create_client name bid db).1.client_name = name ∧
    (get_or_create_client name bid db).1 ∈ (get_or_create_client name bid db).2.clients ∧
    (get_or_create_client name bid db).2.accounts = db.accounts ∧
    (get_or_create_client name bid db).2.entries = db.entries ∧
    (get_or_create_client name bid db).2.lines = db.lines ∧
    db.nextId ≤ (get_or_create_client name bid db).2.nextId ∧
    (∃ xs, (get_or_create_client name bid db).2.clients = db.clients ++ xs ∧
      ∀ c ∈ xs, db.nextId ≤ c.id) ∧
    (∀ c ∈ (get_or_create_client name bid db).2.clients,
      c ∈ db.clients ∨ c.client_type = "customer") ∧
    (DB.WF db → DB.WF (get_or_create_client name bid db).2 ∧
      (get_or_create_client name bid db).1.id < (get_or_create_client name bid db).2.nextId ∧
      findClientById (get_or_create_client name bid db).2
        (get_or_create_client name bid db).1.id = some (get_or_create_client name bid db).1) := by
  cases hf : db.clients.find? (fun c =>
      c.business_id == bid && c.client_name == name && c.is_active) with
  | some c =>
    have hmem : c ∈ db.clients := List.mem_of_find?_eq_some hf
    have hpred := List.find?_some hf
    have hname : c.client_name = name := by
      simp only [Bool.and_eq_true, beq_iff_eq] at hpred
      exact hpred.1.2
    unfold get_or_create_client
    rw [hf]
    refine ⟨hname, hmem, rfl, rfl, rfl, le_refl _, ⟨[], by simp⟩, ?_, ?_⟩
    · intro x hx
      exact Or.inl hx
    · intro hwf
      refine ⟨hwf, hwf.2.2.1 c hmem, ?_⟩
      exact find?_of_mem_nodup (fun x => x.id) db.clients c hwf.2.2.2.1 hmem
  | none =>
    unfold get_or_create_client
    rw [hf]
    dsimp only
    refine ⟨rfl, ?_, rfl, rfl, rfl, by omega, ⟨[_], rfl, ?_⟩, ?_, ?_⟩
    · exact List.mem_append_right _ (List.mem_singleton.mpr rfl)
    · intro x hx
      rcases List.mem_singleton.mp hx with rfl
      exact le_refl _
    · intro x hx
      rcases List.mem_append.mp hx with h | h
      · exact Or.inl h
      · rcases List.mem_singleton.mp h with rfl
        exact Or.inr rfl
    · intro hwf
      refine ⟨wf_add_client hwf _ rfl, by omega, ?_⟩
      unfold findClientById
      dsimp only
      rw [find?_append_left_none]
      · simp [List.find?]
      · intro x hx
        simp only [beq_iff_eq]
        have := hwf.2.2.1 x hx
        omega

theorem pa_spec (bid : Nat) (code aname : String) (ty : AccountType) (db : DB) :
    (provisionAccount bid code aname ty db).1 ∈ (provisionAccount bid code aname ty db).2.accounts ∧
    (provisionAccount bid code aname ty db).1.business_id = bid ∧
    (provisionAccount bid code aname ty db).1.account_code = code ∧
    (provisionAccount bid code aname ty db).2.clients = db.clients ∧
    (provisionAccount bid code aname ty db).2.entries = db.entries ∧
    (provisionAccount bid code aname ty db).2.lines = db.lines ∧
    db.nextId ≤ (provisionAccount bid code aname ty db).2.nextId ∧
    (∃ xs, (provisionAccount bid code aname ty db).2.accounts = db.accounts ++ xs) ∧
    ((∀ x ∈ db.accounts, x.business_id = bid → x.account_code = code →
        x.account_type = ty) →
      (provisionAccount bid code aname ty db).1.account_type = ty) ∧
    (DB.WF db → DB.WF (provisionAccount bid code aname ty db).2 ∧
      (provisionAccount bid code aname ty db).1.id <
        (provisionAccount bid code aname ty db).2.nextId) := by
  cases hf : db.accounts.find? (fun a =>
      a.business_id == bid && a.account_code == code) with
  | some a =>
    have hmem : a ∈ db.accounts := List.mem_of_find?_eq_some hf
    have hpred := List.find?_some hf
    have hfields : a.business_id = bid ∧ a.account_code = code := by
      simp only [Bool.and_eq_true, beq_iff_eq] at hpred
      exact hpred
    unfold provisionAccount
    rw [hf]
    refine ⟨hmem, hfields.1, hfields.2, rfl, rfl, rfl, le_refl _, ⟨[], by simp⟩, ?_, ?_⟩
    · intro h
      exact h a hmem hfields.1 hfields.2
    · intro hwf
      exact ⟨hwf, hwf.1 a hmem⟩
  | none =>
    unfold provisionAccount
    rw [hf]
    dsimp only
    refine ⟨?_, rfl, rfl, rfl, rfl, rfl, by omega, ⟨[_], rfl⟩, fun _ => rfl, ?_⟩
    · exact List.mem_append_right _ (List.mem_singleton.mpr rfl)
    · intro hwf
      exact ⟨wf_add_account hwf _ rfl, by omega⟩

theorem pa_noop_of_exists (bid : Nat) (code aname : String) (ty : AccountType)
    (db : DB)
    (h : ∃ a ∈ db.accounts, (a.business_id == bid && a.account_code == code) = true) :
    provisionAccount bid code aname ty db =
      ((provisionAccount bid code aname ty db).1, db) := by
  obtain ⟨a, ha, hpred⟩ := h
  cases hf : db.accounts.find? (fun a =>
      a.business_id == bid && a.account_code == code) with
  | some b =>
    unfold provisionAccount
    rw [hf]
  | none =>
    rw [List.find?_eq_none] at hf
    exact absurd hpred (hf a ha)

theorem pa_exists_after (bid : Nat) (code aname : String) (ty : AccountType)
    (db : DB) :
    ∃ a ∈ (provisionAccount bid code aname ty db).2.accounts,
      (a.business_id == bid && a.account_code == code) = true := by
  refine ⟨(provisionAccount bid code aname ty db).1, (pa_spec bid code aname ty db).1, ?_⟩
  rw [Bool.and_eq_true, beq_iff_eq, beq_iff_eq]
  exact ⟨(pa_spec bid code aname ty db).2.1, (pa_spec bid code aname ty db).2.2.1⟩

theorem pa_canonical (bid : Nat) (code aname : String) (ty : AccountType)
    (db : DB) (hc : canonicalAccounts bid db = true)
    (hnew : ∀ n, accountClause bid
      { id := n, business_id := bid, account_code := code, account_name := aname,
        account_type := ty, is_system_account := true, is_active := true } = true) :
    canonicalAccounts bid (provisionAccount bid code aname ty db).2 = true := by
  cases hf : db.accounts.find? (fun a =>
      a.business_id == bid && a.account_code == code) with
  | some a =>
    unfold provisionAccount
    rw [hf]
    exact hc
  | none =>
    unfold provisionAccount
    rw [hf]
    unfold canonicalAccounts at hc ⊢
    dsimp only
    rw [List.all_append]
    rw [hc]
    simp only [Bool.true_and, List.all_cons, List.all_nil, Bool.and_true]
    exact hnew db.nextId

theorem pa_mem_mono (bid : Nat) (code aname : String) (ty : AccountType)
    (db : DB) (x : ChartOfAccount) (hx : x ∈ db.accounts) :
    x ∈ (provisionAccount bid code aname ty db).2.accounts := by
  obtain ⟨xs, hxs⟩ := (pa_spec bid code aname ty db).2.2.2.2.2.2.2.1
  rw [hxs]
  exact List.mem_append_left _ hx

theorem canonical_extract (bid : Nat) (db : DB)
    (h : canonicalAccounts bid db = true) :
    (∀ x ∈ db.accounts, x.business_id = bid → x.account_code = "1000" →
      x.account_type = AccountType.asset) ∧
    (∀ x ∈ db.accounts, x.business_id = bid → x.account_code = "4000" →
      x.account_type = AccountType.income) ∧
    (∀ x ∈ db.accounts, x.business_id = bid → x.account_code = "5000" →
      x.account_type = AccountType.expense) := by
  unfold canonicalAccounts at h
  rw [List.all_eq_true] at h
  refine ⟨?_, ?_, ?_⟩
  · intro x hx hb hc
    have hcl := h x hx
    unfold accountClause at hcl
    rw [hb, hc] at hcl
    have d2 : (("1000" : String) == "4000") = false := by decide
    have d3 : (("1000" : String) == "5000") = false := by decide
    simp only [beq_self_eq_true, d2, d3, Bool.not_true, Bool.not_false, Bool.false_or,
      Bool.true_or, Bool.and_true, Bool.true_and, Bool.and_eq_true, beq_iff_eq] at hcl
    exact hcl
  · intro x hx hb hc
    have hcl := h x hx
    unfold accountClause at hcl
    rw [hb, hc] at hcl
    have d1 : (("4000" : String) == "1000") = false := by decide
    have d3 : (("4000" : String) == "5000") = false := by decide
    simp only [beq_self_eq_true, d1, d3, Bool.not_true, Bool.not_false, Bool.false_or,
      Bool.true_or, Bool.and_true, Bool.true_and, Bool.and_eq_true, beq_iff_eq] at hcl
    exact hcl
  · intro x hx hb hc
    have hcl := h x hx
    unfold accountClause at hcl
    rw [hb, hc] at hcl
    have d1 : (("5000" : String) == "1000") = false := by decide
    have d2 : (("5000" : String) == "4000") = false := by decide
    simp only [beq_self_eq_true, d1, d2, Bool.not_true, Bool.not_false, Bool.false_or,
      Bool.true_or, Bool.and_true, Bool.true_and, Bool.and_eq_true, beq_iff_eq] at hcl
    exact hcl

theorem accountClause_self (bid : Nat) (n : Nat) (code aname : String)
    (ty : AccountType)
    (hok : ((!(code == "1000") || (ty == AccountType.asset)) &&
            (!(code == "4000") || (ty == AccountType.income)) &&
            (!(code == "5000") || (ty == AccountType.expense))) = true) :
    accountClause bid
      { id := n, business_id := bid, account_code := code, account_name := aname,
        account_type := ty, is_system_account := true, is_active := true } = true := by
  unfold accountClause
  dsimp only
  rw [beq_self_eq_true]
  rw [Bool.not_true, Bool.false_or]
  exact hok

theorem provision_spec (bid : Nat) (db : DB) (hwf : DB.WF db)
    (hcan : canonicalAccounts bid db = true) :
    AccCtx (get_or_create_default_accounts bid db).1
      (get_or_create_default_accounts bid db).2 ∧
    DB.WF (get_or_create_default_accounts bid db).2 ∧
    (get_or_create_default_accounts bid db).2.clients = db.clients ∧
    (get_or_create_default_accounts bid db).2.entries = db.entries ∧
    (get_or_create_default_accounts bid db).2.lines = db.lines ∧
    db.nextId ≤ (get_or_create_default_accounts bid db).2.nextId := by
  obtain ⟨m1, b1, c1, cl1, en1, li1, nx1, ⟨xs1, ap1⟩, ty1, wfi1⟩ :=
    pa_spec bid "1000" "Bank Account" AccountType.asset db
  have can1 : canonicalAccounts bid
      (provisionAccount bid "1000" "Bank Account" AccountType.asset db).2 = true := by
    apply pa_canonical bid _ _ _ db hcan
    intro n
    exact accountClause_self bid n _ _ _ (by decide)
  have wf1 := (wfi1 hwf).1
  obtain ⟨m2, b2, c2, cl2, en2, li2, nx2, ⟨xs2, ap2⟩, ty2, wfi2⟩ :=
    pa_spec bid "4000" "Revenue" AccountType.income
      (provisionAccount bid "1000" "Bank Account" AccountType.asset db).2
  have can2 : canonicalAccounts bid
      (provisionAccount bid "4000" "Revenue" AccountType.income
        (provisionAccount bid "1000" "Bank Account" AccountType.asset db).2).2 = true := by
    apply pa_canonical bid _ _ _ _ can1
    intro n
    exact accountClause_self bid n _ _ _ (by decide)
  have wf2 := (wfi2 wf1).1
  obtain ⟨m3, b3, c3, cl3, en3, li3, nx3, ⟨xs3, ap3⟩, ty3, wfi3⟩ :=
    pa_spec bid "5000" "Expenses" AccountType.expense
      (provisionAccount bid "4000" "Revenue" AccountType.income
        (provisionAccount bid "1000" "Bank Account" AccountType.asset db).2).2
  have can3 : canonicalAccounts bid
      (provisionAccount bid "5000" "Expenses" AccountType.expense
        (provisionAccount bid "4000" "Revenue" AccountType.income
          (provisionAccount bid "1000" "Bank Account" AccountType.asset db).2).2).2 = true := by
    apply pa_canonical bid _ _ _ _ can2
    intro n
    exact accountClause_self bid n _ _ _ (by decide)
  have wf3 := (wfi3 wf2).1
  obtain ⟨m4, b4, c4, cl4, en4, li4, nx4, ⟨xs4, ap4⟩, ty4, wfi4⟩ :=
    pa_spec bid "1200" "Accounts Receivable" AccountType.asset
      (provisionAccount bid "5000" "Expenses" AccountType.expense
        (provisionAccount bid "4000" "Revenue" AccountType.income
          (provisionAccount bid "1000" "Bank Account" AccountType.asset db).2).2).2
  have wf4 := (wfi4 wf3).1
  have htyBank : (provisionAccount bid "1000" "Bank Account"
      AccountType.asset db).1.account_type = AccountType.asset :=
    ty1 (canonical_extract bid db hcan).1
  have htyRev : (provisionAccount bid "4000" "Revenue" AccountType.income
      (provisionAccount bid "1000" "Bank Account" AccountType.asset db).2).1.account_type =
      AccountType.income :=
    ty2 (canonical_extract bid _ can1).2.1
  have htyExp : (provisionAccount bid "5000" "Expenses" AccountType.expense
      (provisionAccount bid "4000" "Revenue" AccountType.income
        (provisionAccount bid "1000" "Bank Account" AccountType.asset db).2).2).1.account_type =
      AccountType.expense :=
    ty3 (canonical_extract bid _ can2).2.2
  unfold get_or_create_default_accounts
  dsimp only
  refine ⟨?_, wf4, ?_, ?_, ?_, ?_⟩
  · refine ⟨_, _, _, _, rfl, ?_, ?_, ?_, htyBank, htyRev, htyExp⟩
    · exact pa_mem_mono _ _ _ _ _ _ (pa_mem_mono _ _ _ _ _ _ (pa_mem_mono _ _ _ _ _ _ m1))
    · exact pa_mem_mono _ _ _ _ _ _ (pa_mem_mono _ _ _ _ _ _ m2)
    · exact pa_mem_mono _ _ _ _ _ _ m3
  · rw [cl4, cl3, cl2, cl1]
  · rw [en4, en3, en2, en1]
  · rw [li4, li3, li2, li1]
  · exact le_trans nx1 (le_trans nx2 (le_trans nx3 nx4))


theorem addEntry_accounts (db : DB) (e : JournalEntry) :
    (addEntry db e).accounts = db.accounts := rfl

theorem addEntry_clients (db : DB) (e : JournalEntry) :
    (addEntry db e).clients = db.clients := rfl

theorem addEntry_entries (db : DB) (e : JournalEntry) :
    (addEntry db e).entries = db.entries ++ [e] := rfl

theorem addEntry_lines (db : DB) (e : JournalEntry) :
    (addEntry db e).lines = db.lines := rfl

theorem addEntry_nextId (db : DB) (e : JournalEntry) :
    (addEntry db e).nextId = db.nextId + 1 := rfl

theorem addLines_accounts (db : DB) (ls : List JournalEntryLine) :
    (addLines db ls).accounts = db.accounts := rfl

theorem addLines_clients (db : DB) (ls : List JournalEntryLine) :
    (addLines db ls).clients = db.clients := rfl

theorem addLines_entries (db : DB) (ls : List JournalEntryLine) :
    (addLines db ls).entries = db.entries := rfl

theorem addLines_lines (db : DB) (ls : List JournalEntryLine) :
    (addLines db ls).lines = db.lines ++ ls := rfl

theorem addLines_nextId (db : DB) (ls : List JournalEntryLine) :
    (addLines db ls).nextId = db.nextId := rfl

theorem mkEntry_id (bid : Nat) (r : Row) (d : Date) (db : DB) :
    (mkEntry bid r d db).id = db.nextId := rfl

theorem wf_addEntry {db : DB} (hwf : DB.WF db) (e : JournalEntry)
    (he : e.id = db.nextId) : DB.WF (addEntry db e) :=
  wf_add_entry hwf e he

theorem wf_addLines {db : DB} (hwf : DB.WF db) (ls : List JournalEntryLine)
    (h : ∀ l ∈ ls, l.journal_entry_id < db.nextId ∧
      ∀ cid, l.client_id = some cid → cid < db.nextId) :
    DB.WF (addLines db ls) :=
  wf_add_lines hwf ls h

theorem mkLine_journal_entry_id (r : Row) (eid aid cid n : Nat) (d c : ℚ) :
    (mkLine r eid aid cid n d c).journal_entry_id = eid := rfl

theorem mkLine_client_id (r : Row) (eid aid cid n : Nat) (d c : ℚ) :
    (mkLine r eid aid cid n d c).client_id = some cid := rfl

theorem mkLine_debit (r : Row) (eid aid cid n : Nat) (d c : ℚ) :
    (mkLine r eid aid cid n d c).debit_amount = d := rfl

theorem mkLine_credit (r : Row) (eid aid cid n : Nat) (d c : ℚ) :
    (mkLine r eid aid cid n d c).credit_amount = c := rfl

theorem saveRow_master (bid : Nat) (accs : List (String × ChartOfAccount))
    (r : Row) (db : DB) (k : Nat) (hwf : DB.WF db) :
    DB.WF (saveRow bid accs r (db, k)).1 ∧
    GrowsTo db (saveRow bid accs r (db, k)).1 ∧
    (∀ c ∈ (saveRow bid accs r (db, k)).1.clients,
      c ∈ db.clients ∨ c.client_type = "customer") ∧
    (∀ e ∈ (saveRow bid accs r (db, k)).1.entries, e ∉ db.entries →
      entryDebitTotal (saveRow bid accs r (db, k)).1 e =
        entryCreditTotal (saveRow bid accs r (db, k)).1 e) := by
  obtain ⟨gname, gmem, gacc, gent, glin, gnx, ⟨gxs, gcl, gfresh⟩, gcust, gwfi⟩ :=
    gc_spec (strField r.client) bid db
  obtain ⟨gwf, gid, gfind⟩ := gwfi hwf
  set cl := (get_or_create_client (strField r.client) bid db).1 with hcl
  set db1 := (get_or_create_client (strField r.client) bid db).2 with hdb1
  have hGrows1 : GrowsTo db db1 :=
    ⟨gacc, ⟨gxs, gcl, gfresh⟩, ⟨[], by simp [gent]⟩, ⟨[], by simp [glin]⟩, gnx⟩
  unfold saveRow
  dsimp only
  cases hp : parseIsoDate (strField r.date) with
  | none =>
    refine ⟨gwf, hGrows1, gcust, ?_⟩
    intro e he hnot
    rw [gent] at he
    exact absurd he hnot
  | some d =>
    dsimp only
    set entry := mkEntry bid r d db1 with hentry
    set db2 := addEntry db1 entry with hdb2
    have hentryid : entry.id = db1.nextId := rfl
    have hwf2 : DB.WF db2 := wf_addEntry gwf entry rfl
    have hacc2 : db2.accounts = db.accounts := by
      rw [hdb2, addEntry_accounts, gacc]
    have hclients2 : db2.clients = db1.clients := by rw [hdb2, addEntry_clients]
    have hent2 : db2.entries = db.entries ++ [entry] := by
      rw [hdb2, addEntry_entries, gent]
    have hlines2 : db2.lines = db.lines := by rw [hdb2, addEntry_lines, glin]
    have hnext2 : db2.nextId = db1.nextId + 1 := by rw [hdb2, addEntry_nextId]
    have hGrows2 : GrowsTo db db2 := by
      refine ⟨hacc2, ⟨gxs, ?_, gfresh⟩, ⟨[entry], hent2⟩, ⟨[], by simp [hlines2]⟩, ?_⟩
      · rw [hclients2, gcl]
      · omega
    have hfilter2 : db2.lines.filter (fun l => l.journal_entry_id == entry.id) = [] := by
      rw [hlines2, List.filter_eq_nil_iff]
      intro l hl
      simp only [beq_iff_eq]
      intro hEq
      have h1 := (hwf.2.2.2.2.2 l hl).1
      rw [hentryid] at hEq
      omega
    have hNoLines : DB.WF db2 ∧ GrowsTo db db2 ∧
        (∀ c ∈ db2.clients, c ∈ db.clients ∨ c.client_type = "customer") ∧
        (∀ e ∈ db2.entries, e ∉ db.entries →
          entryDebitTotal db2 e = entryCreditTotal db2 e) := by
      refine ⟨hwf2, hGrows2, ?_, ?_⟩
      · intro c hc
        rw [hclients2] at hc
        exact gcust c hc
      · intro e he hnot
        rw [hent2] at he
        rcases List.mem_append.mp he with h | h
        · exact absurd h hnot
        · rcases List.mem_singleton.mp h with rfl
          unfold entryDebitTotal entryCreditTotal entryLines
          rw [hfilter2]
          rfl
    cases hA : lookupAccount accs
        (if pyLower (strField r.type) == "income" then "Bank Account" else "Expenses") with
    | none =>
      cases hB : lookupAccount accs
          (if pyLower (strField r.type) == "income" then "Revenue" else "Bank Account") with
      | none => exact hNoLines
      | some a2 => exact hNoLines
    | some a1 =>
      cases hB : lookupAccount accs
          (if pyLower (strField r.type) == "income" then "Revenue" else "Bank Account") with
      | none => exact hNoLines
      | some a2 =>
        dsimp only
        have hwf3 : DB.WF (addLines db2
            [mkLine r entry.id a1.id cl.id 1 (rowAmount r) 0,
             mkLine r entry.id a2.id cl.id 2 0 (rowAmount r)]) := by
          apply wf_addLines hwf2
          intro l hl
          have hcases : l = mkLine r entry.id a1.id cl.id 1 (rowAmount r) 0 ∨
              l = mkLine r entry.id a2.id cl.id 2 0 (rowAmount r) := by
            rcases List.mem_cons.mp hl with h | h
            · exact Or.inl h
            · exact Or.inr (List.mem_singleton.mp h)
          rcases hcases with rfl | rfl <;>
            refine ⟨?_, ?_⟩ <;>
              first
              | (rw [mkLine_journal_entry_id, hentryid, hnext2]; omega)
              | (intro cid hcid
                 rw [mkLine_client_id, Option.some.injEq] at hcid
                 rw [hnext2]
                 omega)
        have hlines3 : (addLines db2
            [mkLine r entry.id a1.id cl.id 1 (rowAmount r) 0,
             mkLine r entry.id a2.id cl.id 2 0 (rowAmount r)]).lines =
            db.lines ++ [mkLine r entry.id a1.id cl.id 1 (rowAmount r) 0,
             mkLine r entry.id a2.id cl.id 2 0 (rowAmount r)] := by
          rw [addLines_lines, hlines2]
        refine ⟨hwf3, ?_, ?_, ?_⟩
        · refine ⟨?_, ⟨gxs, ?_, gfresh⟩, ⟨[entry], ?_⟩, ⟨_, hlines3, ?_⟩, ?_⟩
          · rw [addLines_accounts, hacc2]
          · rw [addLines_clients, hclients2, gcl]
          · rw [addLines_entries, hent2]
          · intro l hl
            have hcases : l = mkLine r entry.id a1.id cl.id 1 (rowAmount r) 0 ∨
                l = mkLine r entry.id a2.id cl.id 2 0 (rowAmount r) := by
              rcases List.mem_cons.mp hl with h | h
              · exact Or.inl h
              · exact Or.inr (List.mem_singleton.mp h)
            rcases hcases with rfl | rfl <;>
              (rw [mkLine_journal_entry_id, hentryid]; omega)
          · rw [addLines_nextId, hnext2]
            omega
        · intro c hc
          rw [addLines_clients, hclients2] at hc
          exact gcust c hc
        · intro e he hnot
          rw [addLines_entries, hent2] at he
          rcases List.mem_append.mp he with h | h
          · exact absurd h hnot
          · rcases List.mem_singleton.mp h with rfl
            unfold entryDebitTotal entryCreditTotal entryLines
            rw [addLines_lines, List.filter_append, hfilter2, List.nil_append]
            simp only [List.filter, mkLine_journal_entry_id, beq_self_eq_true,
              List.map_cons, List.map_nil, List.sum_cons, List.sum_nil,
              mkLine_debit, mkLine_credit]
            ring

theorem totals_stable {db1 db2 : DB} (h : GrowsTo db1 db2) (e : JournalEntry)
    (he : e.id < db1.nextId) :
    entryDebitTotal db2 e = entryDebitTotal db1 e ∧
    entryCreditTotal db2 e = entryCreditTotal db1 e := by
  unfold entryDebitTotal entryCreditTotal
  rw [entryLines_stable h e he]
  exact ⟨rfl, rfl⟩

theorem save_fold_master (bid : Nat) (accs : List (String × ChartOfAccount)) :
    ∀ (rows : List Row) (db : DB) (k : Nat), DB.WF db →
    DB.WF (rows.foldl (fun st r => saveRow bid accs r st) (db, k)).1 ∧
    GrowsTo db (rows.foldl (fun st r => saveRow bid accs r st) (db, k)).1 ∧
    (∀ c ∈ (rows.foldl (fun st r => saveRow bid accs r st) (db, k)).1.clients,
      c ∈ db.clients ∨ c.client_type = "customer") ∧
    (∀ e ∈ (rows.foldl (fun st r => saveRow bid accs r st) (db, k)).1.entries,
      e ∉ db.entries →
      entryDebitTotal (rows.foldl (fun st r => saveRow bid accs r st) (db, k)).1 e =
        entryCreditTotal (rows.foldl (fun st r => saveRow bid accs r st) (db, k)).1 e) := by
  intro rows
  induction rows with
  | nil =>
    intro db k hwf
    refine ⟨hwf, growsTo_refl db, ?_, ?_⟩
    · intro c hc
      exact Or.inl hc
    · intro e he hnot
      exact absurd he hnot
  | cons r rows ih =>
    intro db k hwf
    obtain ⟨hwfS, hgrowS, hcustS, hbalS⟩ := saveRow_master bid accs r db k hwf
    rcases hst : saveRow bid accs r (db, k) with ⟨dbm, km⟩
    rw [hst] at hwfS hgrowS hcustS hbalS
    dsimp only at hwfS hgrowS hcustS hbalS
    simp only [List.foldl_cons, hst]
    obtain ⟨hwfF, hgrowF, hcustF, hbalF⟩ := ih dbm km hwfS
    refine ⟨hwfF, growsTo_trans hgrowS hgrowF, ?_, ?_⟩
    · intro c hc
      rcases hcustF c hc with hmem | hty
      · exact hcustS c hmem
      · exact Or.inr hty
    · intro e he hnot
      by_cases hmem : e ∈ dbm.entries
      · have hbal := hbalS e hmem hnot
        have hid : e.id < dbm.nextId := hwfS.2.2.2.2.1 e hmem
        obtain ⟨hd, hc⟩ := totals_stable hgrowF e hid
        rw [hd, hc]
        exact hbal
      · exact hbalF e he hmem

theorem provision_wf (bid : Nat) (db : DB) (hwf : DB.WF db) :
    DB.WF (get_or_create_default_accounts bid db).2 ∧
    (get_or_create_default_accounts bid db).2.clients = db.clients ∧
    (get_or_create_default_accounts bid db).2.entries = db.entries ∧
    (get_or_create_default_accounts bid db).2.lines = db.lines ∧
    db.nextId ≤ (get_or_create_default_accounts bid db).2.nextId := by
  obtain ⟨_, _, _, cl1, en1, li1, nx1, _, _, wfi1⟩ :=
    pa_spec bid "1000" "Bank Account" AccountType.asset db
  have wf1 := (wfi1 hwf).1
  obtain ⟨_, _, _, cl2, en2, li2, nx2, _, _, wfi2⟩ :=
    pa_spec bid "4000" "Revenue" AccountType.income
      (provisionAccount bid "1000" "Bank Account" AccountType.asset db).2
  have wf2 := (wfi2 wf1).1
  obtain ⟨_, _, _, cl3, en3, li3, nx3, _, _, wfi3⟩ :=
    pa_spec bid "5000" "Expenses" AccountType.expense
      (provisionAccount bid "4000" "Revenue" AccountType.income
        (provisionAccount bid "1000" "Bank Account" AccountType.asset db).2).2
  have wf3 := (wfi3 wf2).1
  obtain ⟨_, _, _, cl4, en4, li4, nx4, _, _, wfi4⟩ :=
    pa_spec bid "1200" "Accounts Receivable" AccountType.asset
      (provisionAccount bid "5000" "Expenses" AccountType.expense
        (provisionAccount bid "4000" "Revenue" AccountType.income
          (provisionAccount bid "1000" "Bank Account" AccountType.asset db).2).2).2
  have wf4 := (wfi4 wf3).1
  unfold get_or_create_default_accounts
  dsimp only
  refine ⟨wf4, ?_, ?_, ?_, ?_⟩
  · rw [cl4, cl3, cl2, cl1]
  · rw [en4, en3, en2, en1]
  · rw [li4, li3, li2, li1]
  · exact le_trans nx1 (le_trans nx2 (le_trans nx3 nx4))

instance (db : DB) : Decidable (DB.WF db) := by
  unfold DB.WF
  infer_instance

/-- The empty store, the state before any provisioning or posting. -/
def emptyDB : DB :=
  { accounts := [], clients := [], entries := [], lines := [], nextId := 0 }

/-- C2.  Balance invariant: every JournalEntry created by
`save_transactions_to_database` — for any input record, whatever its kind
— has the sum of its lines' debit amounts equal to the sum of its lines'
credit amounts.  New entries receive either the two balanced lines of the
posting rule or, when the per-row handler aborts after the header is
flushed, no lines at all; both balance. -/
theorem posted_entries_balanced (rows : List Row) (bid : Nat) (db : DB)
    (hwf : DB.WF db) (e : JournalEntry)
    (he : e ∈ (save_transactions_to_database rows bid db).1.entries)
    (hnew : e ∉ db.entries) :
    entryDebitTotal (save_transactions_to_database rows bid db).1 e =
      entryCreditTotal (save_transactions_to_database rows bid db).1 e := by
  obtain ⟨pwf, pcl, pen, pli, pnx⟩ := provision_wf bid db hwf
  unfold save_transactions_to_database at he ⊢
  dsimp only at he ⊢
  obtain ⟨hwfF, hgrowF, hcustF, hbalF⟩ :=
    save_fold_master bid (get_or_create_default_accounts bid db).1 rows
      (get_or_create_default_accounts bid db).2 0 pwf
  apply hbalF e he
  rw [pen]
  exact hnew

/-- The record used by the concrete witnesses: a plain income row. -/
def rW : Row :=
  { date := some "2026-01-15", client := some "ABC Corp",
    description := some "Website Project", amount := some 50000,
    type := some "income", gst_category := some "" }

/-- The JournalEntry that posting `rW` into the empty store creates:
accounts take ids 0-3, the client id 4, the entry id 5. -/
def eW : JournalEntry :=
  { id := 5, business_id := 1, reference_number := "CSV-5",
    entry_date := { year := 2026, month := 1, day := 15 },
    description := "Website Project",
    source_type := EntrySourceType.csv_import, is_posted := true }

/-- Witness for C2 at a concrete input. -/
theorem posted_entries_balanced_witness :
    DB.WF emptyDB ∧
    eW ∈ (save_transactions_to_database [rW] 1 emptyDB).1.entries ∧
    eW ∉ emptyDB.entries ∧
    entryDebitTotal (save_transactions_to_database [rW] 1 emptyDB).1 eW =
      entryCreditTotal (save_transactions_to_database [rW] 1 emptyDB).1 eW :=
  ⟨by decide, by decide, by decide,
    posted_entries_balanced [rW] 1 emptyDB (by decide) eW (by decide) (by decide)⟩

/-- C10.  Every Party row auto-created during posting carries the type tag
`"customer"`, whatever the transaction's kind: `get_or_create_client`
always sets `client_type="customer"`, so the counterparty of an expense
is recorded as a customer too. -/
theorem auto_created_parties_are_customers (rows : List Row) (bid : Nat)
    (db : DB) (hwf : DB.WF db) (c : Client)
    (hc : c ∈ (save_transactions_to_database rows bid db).1.clients)
    (hnew : c ∉ db.clients) : c.client_type = "customer" := by
  obtain ⟨pwf, pcl, pen, pli, pnx⟩ := provision_wf bid db hwf
  unfold save_transactions_to_database at hc
  dsimp only at hc
  obtain ⟨hwfF, hgrowF, hcustF, hbalF⟩ :=
    save_fold_master bid (get_or_create_default_accounts bid db).1 rows
      (get_or_create_default_accounts bid db).2 0 pwf
  rcases hcustF c hc with hmem | hty
  · rw [pcl] at hmem
    exact absurd hmem hnew
  · exact hty

/-- The expense row used by the C10 witness: its counterparty is a
vendor, yet the created Party row is typed `"customer"`. -/
def rVendor : Row :=
  { date := some "2026-01-12", client := some "AWS",
    description := some "AWS Cloud Subscription", amount := some 12000,
    type := some "expense", gst_category := some "" }

/-- The Party row posting `rVendor` into the empty store creates. -/
def cW : Client :=
  { id := 4, business_id := 1, client_name := "AWS",
    client_type := "customer", is_active := true }

/-- Witness for C10 at a concrete input. -/
theorem auto_created_parties_are_customers_witness :
    DB.WF emptyDB ∧
    cW ∈ (save_transactions_to_database [rVendor] 1 emptyDB).1.clients ∧
    cW ∉ emptyDB.clients ∧
    cW.client_type = "customer" :=
  ⟨by decide, by decide, by decide,
    auto_created_parties_are_customers [rVendor] 1 emptyDB (by decide) cW
      (by decide) (by decide)⟩

/-- C4.  Fail-open: when the duplicate-lookup storage query raises, the
filter returns the whole input batch as new with duplicate count 0; the
exception is consumed by the handler and never reaches the caller (the
embedded filter is a total function whose failure branch is exactly this
result). -/
theorem duplicate_filter_fails_open (rows : List Row) (bid : Nat) (db : DB)
    (today : Date) (msg : String) :
    filter_duplicate_transactions rows bid db today (Except.error msg) =
      (rows, 0) := rfl

theorem pa_append_spec (bid : Nat) (code aname : String) (ty : AccountType)
    (db : DB) :
    ∃ xs, (provisionAccount bid code aname ty db).2.accounts = db.accounts ++ xs ∧
      (∀ a ∈ xs, a.business_id = bid ∧ a.account_code = code ∧
        a.is_system_account = true) ∧
      ((∀ x ∈ db.accounts,
          ¬(x.business_id == bid && x.account_code == code) = true) →
        xs.length = 1) := by
  cases hf : db.accounts.find? (fun a =>
      a.business_id == bid && a.account_code == code) with
  | some a =>
    refine ⟨[], ?_, by simp, ?_⟩
    · unfold provisionAccount
      rw [hf]
      simp
    · intro h
      exact absurd (List.find?_some hf) (h a (List.mem_of_find?_eq_some hf))
  | none =>
    refine ⟨[ChartOfAccount.mk db.nextId bid code aname ty true true], ?_, ?_,
      fun _ => rfl⟩
    · unfold provisionAccount
      rw [hf]
    · intro a ha
      rcases List.mem_singleton.mp ha with rfl
      exact ⟨rfl, rfl, rfl⟩

/-- C8.  Provisioning idempotence: one call only appends accounts (never
updates or deletes), a second call for the same business leaves the store
untouched, and from a store holding no account of the business the first
call creates exactly the 4 system accounts — two calls yield 4, not 8. -/
theorem provisioning_idempotent (bid : Nat) (db : DB) :
    (∃ xs, (get_or_create_default_accounts bid db).2.accounts =
      db.accounts ++ xs) ∧
    (get_or_create_default_accounts bid
        (get_or_create_default_accounts bid db).2).2 =
      (get_or_create_default_accounts bid db).2 ∧
    ((∀ a ∈ db.accounts, a.business_id ≠ bid) →
      (((get_or_create_default_accounts bid db).2.accounts.filter
        (fun a => a.business_id == bid && a.is_system_account)).length = 4)) := by
  obtain ⟨xs1, a1eq, mem1, len1⟩ :=
    pa_append_spec bid "1000" "Bank Account" AccountType.asset db
  obtain ⟨xs2, a2eq, mem2, len2⟩ :=
    pa_append_spec bid "4000" "Revenue" AccountType.income
      (provisionAccount bid "1000" "Bank Account" AccountType.asset db).2
  obtain ⟨xs3, a3eq, mem3, len3⟩ :=
    pa_append_spec bid "5000" "Expenses" AccountType.expense
      (provisionAccount bid "4000" "Revenue" AccountType.income
        (provisionAccount bid "1000" "Bank Account" AccountType.asset db).2).2
  obtain ⟨xs4, a4eq, mem4, len4⟩ :=
    pa_append_spec bid "1200" "Accounts Receivable" AccountType.asset
      (provisionAccount bid "5000" "Expenses" AccountType.expense
        (provisionAccount bid "4000" "Revenue" AccountType.income
          (provisionAccount bid "1000" "Bank Account" AccountType.asset db).2).2).2
  have haccall : (get_or_create_default_accounts bid db).2.accounts =
      db.accounts ++ xs1 ++ xs2 ++ xs3 ++ xs4 := by
    unfold get_or_create_default_accounts
    dsimp only
    rw [a4eq, a3eq, a2eq, a1eq]
  refine ⟨⟨xs1 ++ xs2 ++ xs3 ++ xs4, by rw [haccall]; simp [List.append_assoc]⟩, ?_, ?_⟩
  · -- the second call finds each of the four codes and is a no-op
    have hex : ∀ code aname2 ty2 (P : DB), (∃ a ∈ P.accounts,
        (a.business_id == bid && a.account_code == code) = true) →
        (provisionAccount bid code aname2 ty2 P).2 = P := by
      intro code aname2 ty2 P hx
      rw [pa_noop_of_exists bid code aname2 ty2 P hx]
    have mono34 : ∀ x ∈ (provisionAccount bid "5000" "Expenses" AccountType.expense
        (provisionAccount bid "4000" "Revenue" AccountType.income
          (provisionAccount bid "1000" "Bank Account" AccountType.asset db).2).2).2.accounts,
        x ∈ (provisionAccount bid "1200" "Accounts Receivable" AccountType.asset
          (provisionAccount bid "5000" "Expenses" AccountType.expense
            (provisionAccount bid "4000" "Revenue" AccountType.income
              (provisionAccount bid "1000" "Bank Account" AccountType.asset db).2).2).2).2.accounts := by
      intro x hx
      exact pa_mem_mono bid "1200" "Accounts Receivable" AccountType.asset _ x hx
    have mono23 : ∀ x ∈ (provisionAccount bid "4000" "Revenue" AccountType.income
        (provisionAccount bid "1000" "Bank Account" AccountType.asset db).2).2.accounts,
        x ∈ (provisionAccount bid "1200" "Accounts Receivable" AccountType.asset
          (provisionAccount bid "5000" "Expenses" AccountType.expense
            (provisionAccount bid "4000" "Revenue" AccountType.income
              (provisionAccount bid "1000" "Bank Account" AccountType.asset db).2).2).2).2.accounts := by
      intro x hx
      exact mono34 x (pa_mem_mono bid "5000" "Expenses" AccountType.expense _ x hx)
    have mono12 : ∀ x ∈ (provisionAccount bid "1000" "Bank Account"
        AccountType.asset db).2.accounts,
        x ∈ (provisionAccount bid "1200" "Accounts Receivable" AccountType.asset
          (provisionAccount bid "5000" "Expenses" AccountType.expense
            (provisionAccount bid "4000" "Revenue" AccountType.income
              (provisionAccount bid "1000" "Bank Account" AccountType.asset db).2).2).2).2.accounts := by
      intro x hx
      exact mono23 x (pa_mem_mono bid "4000" "Revenue" AccountType.income _ x hx)
    have hexP : ∀ code, (∃ a ∈ (get_or_create_default_accounts bid db).2.accounts,
        (a.business_id == bid && a.account_code == code) = true) ↔
        ∃ a ∈ ((provisionAccount bid "1200" "Accounts Receivable" AccountType.asset
          (provisionAccount bid "5000" "Expenses" AccountType.expense
            (provisionAccount bid "4000" "Revenue" AccountType.income
              (provisionAccount bid "1000" "Bank Account" AccountType.asset
                db).2).2).2).2).accounts,
        (a.business_id == bid && a.account_code == code) = true := by
      intro code
      unfold get_or_create_default_accounts
      dsimp only
      exact Iff.rfl
    have hx1 : ∃ a ∈ (get_or_create_default_accounts bid db).2.accounts,
        (a.business_id == bid && a.account_code == ("1000" : String)) = true := by
      rw [hexP]
      obtain ⟨a, ha, hp⟩ := pa_exists_after bid "1000" "Bank Account" AccountType.asset db
      exact ⟨a, mono12 a ha, hp⟩
    have hx2 : ∃ a ∈ (get_or_create_default_accounts bid db).2.accounts,
        (a.business_id == bid && a.account_code == ("4000" : String)) = true := by
      rw [hexP]
      obtain ⟨a, ha, hp⟩ := pa_exists_after bid "4000" "Revenue" AccountType.income _
      exact ⟨a, mono23 a ha, hp⟩
    have hx3 : ∃ a ∈ (get_or_create_default_accounts bid db).2.accounts,
        (a.business_id == bid && a.account_code == ("5000" : String)) = true := by
      rw [hexP]
      obtain ⟨a, ha, hp⟩ := pa_exists_after bid "5000" "Expenses" AccountType.expense _
      exact ⟨a, mono34 a ha, hp⟩
    have hx4 : ∃ a ∈ (get_or_create_default_accounts bid db).2.accounts,
        (a.business_id == bid && a.account_code == ("1200" : String)) = true := by
      rw [hexP]
      exact pa_exists_after bid "1200" "Accounts Receivable" AccountType.asset _
    have e1 := hex "1000" "Bank Account" AccountType.asset _ hx1
    conv_lhs => rw [get_or_create_default_accounts]
    dsimp only
    rw [e1]
    have e2 := hex "4000" "Revenue" AccountType.income _ hx2
    rw [e2]
    have e3 := hex "5000" "Expenses" AccountType.expense _ hx3
    rw [e3]
    exact hex "1200" "Accounts Receivable" AccountType.asset _ hx4
  · intro hno
    have hnopred : ∀ (code : String), ∀ x ∈ db.accounts,
        ¬(x.business_id == bid && x.account_code == code) = true := by
      intro code x hx
      simp only [Bool.and_eq_true, beq_iff_eq, not_and]
      intro h1
      exact absurd h1 (hno x hx)
    have hl1 : xs1.length = 1 := len1 (hnopred "1000")
    have hl2 : xs2.length = 1 := by
      apply len2
      rw [a1eq]
      intro x hx
      rcases List.mem_append.mp hx with h | h
      · exact hnopred "4000" x h
      · obtain ⟨_, hcode, _⟩ := mem1 x h
        simp only [Bool.and_eq_true, beq_iff_eq, not_and, hcode]
        intro _ hbad
        exact absurd hbad (by decide)
    have hl3 : xs3.length = 1 := by
      apply len3
      rw [a2eq, a1eq]
      intro x hx
      rcases List.mem_append.mp hx with h | h
      · rcases List.mem_append.mp h with h2 | h2
        · exact hnopred "5000" x h2
        · obtain ⟨_, hcode, _⟩ := mem1 x h2
          simp only [Bool.and_eq_true, beq_iff_eq, not_and, hcode]
          intro _ hbad
          exact absurd hbad (by decide)
      · obtain ⟨_, hcode, _⟩ := mem2 x h
        simp only [Bool.and_eq_true, beq_iff_eq, not_and, hcode]
        intro _ hbad
        exact absurd hbad (by decide)
    have hl4 : xs4.length = 1 := by
      apply len4
      rw [a3eq, a2eq, a1eq]
      intro x hx
      rcases List.mem_append.mp hx with h | h
      · rcases List.mem_append.mp h with h2 | h2
        · rcases List.mem_append.mp h2 with h3 | h3
          · exact hnopred "1200" x h3
          · obtain ⟨_, hcode, _⟩ := mem1 x h3
            simp only [Bool.and_eq_true, beq_iff_eq, not_and, hcode]
            intro _ hbad
            exact absurd hbad (by decide)
        · obtain ⟨_, hcode, _⟩ := mem2 x h2
          simp only [Bool.and_eq_true, beq_iff_eq, not_and, hcode]
          intro _ hbad
          exact absurd hbad (by decide)
      · obtain ⟨_, hcode, _⟩ := mem3 x h
        simp only [Bool.and_eq_true, beq_iff_eq, not_and, hcode]
        intro _ hbad
        exact absurd hbad (by decide)
    rw [haccall]
    rw [List.filter_append, List.filter_append, List.filter_append, List.filter_append]
    have hfold : db.accounts.filter
        (fun a => a.business_id == bid && a.is_system_account) = [] := by
      rw [List.filter_eq_nil_iff]
      intro a ha
      simp only [Bool.and_eq_true, beq_iff_eq, not_and]
      intro h1
      exact absurd h1 (hno a ha)
    have hkeep : ∀ (xs : List ChartOfAccount),
        (∀ a ∈ xs, a.business_id = bid ∧ a.is_system_account = true) →
        xs.filter (fun a => a.business_id == bid && a.is_system_account) = xs := by
      intro xs hxs
      rw [List.filter_eq_self]
      intro a ha
      obtain ⟨h1, h2⟩ := hxs a ha
      simp [h1, h2]
    rw [hfold, hkeep xs1 (fun a ha => ⟨(mem1 a ha).1, (mem1 a ha).2.2⟩),
      hkeep xs2 (fun a ha => ⟨(mem2 a ha).1, (mem2 a ha).2.2⟩),
      hkeep xs3 (fun a ha => ⟨(mem3 a ha).1, (mem3 a ha).2.2⟩),
      hkeep xs4 (fun a ha => ⟨(mem4 a ha).1, (mem4 a ha).2.2⟩)]
    simp [hl1, hl2, hl3, hl4]

/-- Witness for C8 at a concrete input. -/
theorem provisioning_idempotent_witness :
    (∃ xs, (get_or_create_default_accounts 1 emptyDB).2.accounts =
      emptyDB.accounts ++ xs) ∧
    (get_or_create_default_accounts 1
        (get_or_create_default_accounts 1 emptyDB).2).2 =
      (get_or_create_default_accounts 1 emptyDB).2 ∧
    ((get_or_create_default_accounts 1 emptyDB).2.accounts.filter
      (fun a => a.business_id == 1 && a.is_system_account)).length = 4 :=
  ⟨(provisioning_idempotent 1 emptyDB).1,
   (provisioning_idempotent 1 emptyDB).2.1,
   (provisioning_idempotent 1 emptyDB).2.2 (by decide)⟩

/-- C9 (amended).  The Party Resolver is idempotent for the exact raw
name: a second `get_or_create_client` call with the identical business
and raw name string returns the row of the first call and changes
nothing.  The lookup key is the raw name — no case or whitespace
normalization — so equality holds only string-exactly (see the
counterexample for case-variant names). -/
theorem party_resolver_exact_name_idempotent (name : String) (bid : Nat)
    (db : DB) :
    get_or_create_client name bid (get_or_create_client name bid db).2 =
      get_or_create_client name bid db := by
  cases hf : db.clients.find? (fun c =>
      c.business_id == bid && c.client_name == name && c.is_active) with
  | some c =>
    have h2 : get_or_create_client name bid db = (c, db) := by
      unfold get_or_create_client
      rw [hf]
    rw [h2]
    exact h2
  | none =>
    have h2 : get_or_create_client name bid db =
        (Client.mk db.nextId bid name "customer" true,
         { db with
            clients := db.clients ++ [Client.mk db.nextId bid name "customer" true],
            nextId := db.nextId + 1 }) := by
      unfold get_or_create_client
      rw [hf]
    rw [h2]
    unfold get_or_create_client
    dsimp only
    rw [find?_append_left_none]
    · simp [List.find?]
    · rw [List.find?_eq_none] at hf
      exact hf

/-- C9 counterexample: two resolver calls for the same business whose raw
names differ only in letter case create two distinct Party rows — they do
not resolve to one row, so uniqueness per normalized name does not hold. -/
theorem case_variant_names_create_two_parties :
    (get_or_create_client "abc corp" 1
      (get_or_create_client "ABC Corp" 1 emptyDB).2).2.clients.length = 2 ∧
    (get_or_create_client "abc corp" 1
      (get_or_create_client "ABC Corp" 1 emptyDB).2).1 ≠
      (get_or_create_client "ABC Corp" 1 emptyDB).1 := by
  exact ⟨by decide, by decide⟩

/-- C5 (amended).  Signature invariance under the normalization the code
applies: records whose party names and descriptions agree after
lower-casing, stripping, and removing internal space characters (and
whose other fields are equal) receive identical signatures.  Whitespace
other than U+0020 inside a field is not removed, so invariance under
arbitrary internal whitespace does not hold (see the counterexample). -/
theorem signature_invariant_under_case_and_spaces (r1 r2 : Row)
    (hdate : r1.date = r2.date)
    (hclient : Option.map normalizeText r1.client =
      Option.map normalizeText r2.client)
    (hdesc : Option.map normalizeText r1.description =
      Option.map normalizeText r2.description)
    (hamount : r1.amount = r2.amount)
    (htype : r1.type = r2.type) :
    create_transaction_signature r1 = create_transaction_signature r2 := by
  have hc : (match r1.client with | some s => normalizeText s | none => "") =
      (match r2.client with | some s => normalizeText s | none => "") := by
    cases h1 : r1.client with
    | none =>
      cases h2 : r2.client with
      | none => rfl
      | some b =>
        rw [h1, h2] at hclient
        simp at hclient
    | some a =>
      cases h2 : r2.client with
      | none =>
        rw [h1, h2] at hclient
        simp at hclient
      | some b =>
        rw [h1, h2] at hclient
        have hnn : normalizeText a = normalizeText b := by
          simpa using hclient
        simp only [hnn]
  have hd : (match r1.description with | some s => normalizeText s | none => "") =
      (match r2.description with | some s => normalizeText s | none => "") := by
    cases h1 : r1.description with
    | none =>
      cases h2 : r2.description with
      | none => rfl
      | some b =>
        rw [h1, h2] at hdesc
        simp at hdesc
    | some a =>
      cases h2 : r2.description with
      | none =>
        rw [h1, h2] at hdesc
        simp at hdesc
      | some b =>
        rw [h1, h2] at hdesc
        have hnn : normalizeText a = normalizeText b := by
          simpa using hdesc
        simp only [hnn]
  unfold create_transaction_signature md5 signatureData
  rw [hdate, hamount, htype, hc, hd]

/-- A record whose party name holds an internal tab. -/
def rTab : Row :=
  { date := some "2026-01-15", client := some "AB\tCorp",
    description := some "Web dev", amount := some 1000,
    type := some "income", gst_category := none }

/-- The same record with the tab removed. -/
def rNoTab : Row :=
  { date := some "2026-01-15", client := some "ABCorp",
    description := some "Web dev", amount := some 1000,
    type := some "income", gst_category := none }

/-- C5 counterexample: `rTab` and `rNoTab` differ only in internal
whitespace of the party name — under the spec's remove-all-whitespace
normalization (`specNormalize`) the two names coincide — yet their
signatures differ, because the code's `.replace(' ', '')` removes only
space characters, not tabs. -/
theorem signature_not_invariant_under_tab :
    specNormalize "AB\tCorp" = specNormalize "ABCorp" ∧
    create_transaction_signature rTab ≠ create_transaction_signature rNoTab := by
  exact ⟨by decide, by decide⟩

/-- The plain record for the C5 witness. -/
def rCase1 : Row :=
  { date := some "2026-01-15", client := some "TechCorp",
    description := some "Software Development", amount := some 1000,
    type := some "income", gst_category := none }

/-- A case- and space-variant of `rCase1`. -/
def rCase2 : Row :=
  { date := some "2026-01-15", client := some " TECH CORP ",
    description := some "SOFTWARE  DEVELOPMENT", amount := some 1000,
    type := some "income", gst_category := none }

/-- Witness for C5 (amended) at a concrete input. -/
theorem signature_invariant_under_case_and_spaces_witness :
    Option.map normalizeText rCase1.client = Option.map normalizeText rCase2.client ∧
    create_transaction_signature rCase1 = create_transaction_signature rCase2 :=
  ⟨by decide,
   signature_invariant_under_case_and_spaces rCase1 rCase2 (by decide) (by decide)
     (by decide) (by decide) (by decide)⟩

/-- C7 (amended).  The Duplicate Filter's signature set contains exactly
the reconstructed signatures of the business's JournalEntries whose entry
date falls within the rolling six-month lookback window — posted or not;
entries of another business or outside the window contribute nothing,
but the query does not restrict to posted entries. -/
theorem existing_signatures_characterization (s : String) (bid : Nat)
    (db : DB) (today : Date) :
    s ∈ existingSignatureList bid db today ↔
      ∃ e, e ∈ db.entries ∧ e.business_id = bid ∧
        Date.le (sixMonthsAgo today) e.entry_date = true ∧
        s = reconstructSignature db e := by
  unfold existingSignatureList
  rw [List.mem_map]
  constructor
  · rintro ⟨e, he, rfl⟩
    rw [List.mem_filter] at he
    obtain ⟨hmem, hpred⟩ := he
    rw [Bool.and_eq_true, beq_iff_eq] at hpred
    exact ⟨e, hmem, hpred.1, hpred.2, rfl⟩
  · rintro ⟨e, hmem, hb, hw, rfl⟩
    refine ⟨e, ?_, rfl⟩
    rw [List.mem_filter]
    refine ⟨hmem, ?_⟩
    rw [Bool.and_eq_true, beq_iff_eq]
    exact ⟨hb, hw⟩

/-- A draft (unposted) journal entry inside the lookback window. -/
def eDraft : JournalEntry :=
  { id := 0, business_id := 1, reference_number := "MAN-1",
    entry_date := { year := 2026, month := 9, day := 15 },
    description := "Draft entry", source_type := EntrySourceType.manual,
    is_posted := false }

/-- A store whose only journal entry is the draft `eDraft`. -/
def dbDraft : DB :=
  { accounts := [], clients := [], entries := [eDraft], lines := [],
    nextId := 1 }

/-- The reference day used by the C7 counterexample. -/
def todayC7 : Date := { year := 2026, month := 10, day := 12 }

/-- C7 counterexample: a store whose only entry is not posted still
contributes a signature to the Duplicate Filter's set — the query does
not filter on `is_posted`, contradicting the claim that only posted
entries contribute. -/
theorem draft_entry_contributes_signature :
    (∀ e ∈ dbDraft.entries, e.is_posted = false) ∧
    (existingSignatureList 1 dbDraft todayC7).length = 1 := by
  exact ⟨by decide, by decide⟩

theorem provision_fields (bid : Nat) (db : DB) :
    (get_or_create_default_accounts bid db).2.clients = db.clients ∧
    (get_or_create_default_accounts bid db).2.entries = db.entries ∧
    (get_or_create_default_accounts bid db).2.lines = db.lines ∧
    db.nextId ≤ (get_or_create_default_accounts bid db).2.nextId := by
  obtain ⟨_, _, _, cl1, en1, li1, nx1, _, _, _⟩ :=
    pa_spec bid "1000" "Bank Account" AccountType.asset db
  obtain ⟨_, _, _, cl2, en2, li2, nx2, _, _, _⟩ :=
    pa_spec bid "4000" "Revenue" AccountType.income
      (provisionAccount bid "1000" "Bank Account" AccountType.asset db).2
  obtain ⟨_, _, _, cl3, en3, li3, nx3, _, _, _⟩ :=
    pa_spec bid "5000" "Expenses" AccountType.expense
      (provisionAccount bid "4000" "Revenue" AccountType.income
        (provisionAccount bid "1000" "Bank Account" AccountType.asset db).2).2
  obtain ⟨_, _, _, cl4, en4, li4, nx4, _, _, _⟩ :=
    pa_spec bid "1200" "Accounts Receivable" AccountType.asset
      (provisionAccount bid "5000" "Expenses" AccountType.expense
        (provisionAccount bid "4000" "Revenue" AccountType.income
          (provisionAccount bid "1000" "Bank Account" AccountType.asset db).2).2).2
  unfold get_or_create_default_accounts
  dsimp only
  refine ⟨?_, ?_, ?_, ?_⟩
  · rw [cl4, cl3, cl2, cl1]
  · rw [en4, en3, en2, en1]
  · rw [li4, li3, li2, li1]
  · exact le_trans nx1 (le_trans nx2 (le_trans nx3 nx4))

theorem lookupAccount_literal (bank rev exp recv : ChartOfAccount) :
    lookupAccount [("Bank Account", bank), ("Revenue", rev),
      ("Expenses", exp), ("Accounts Receivable", recv)] "Bank Account" = some bank ∧
    lookupAccount [("Bank Account", bank), ("Revenue", rev),
      ("Expenses", exp), ("Accounts Receivable", recv)] "Revenue" = some rev ∧
    lookupAccount [("Bank Account", bank), ("Revenue", rev),
      ("Expenses", exp), ("Accounts Receivable", recv)] "Expenses" = some exp := by
  have d1 : (("Bank Account" : String) == "Revenue") = false := by decide
  have d2 : (("Bank Account" : String) == "Expenses") = false := by decide
  have d3 : (("Revenue" : String) == "Expenses") = false := by decide
  refine ⟨?_, ?_, ?_⟩ <;>
    simp [lookupAccount, List.find?, d1, d2, d3]

theorem saveRow_skips (bid : Nat) (accs : List (String × ChartOfAccount))
    (r : Row) (db : DB) (k : Nat)
    (hp : parseIsoDate (strField r.date) = none) :
    saveRow bid accs r (db, k) =
      ((get_or_create_client (strField r.client) bid db).2, k) := by
  unfold saveRow
  dsimp only
  rw [hp]

theorem saveRow_posts (bid : Nat) (bank rev exp recv : ChartOfAccount)
    (r : Row) (db : DB) (k : Nat) (d : Date)
    (hp : parseIsoDate (strField r.date) = some d) :
    saveRow bid [("Bank Account", bank), ("Revenue", rev),
        ("Expenses", exp), ("Accounts Receivable", recv)] r (db, k) =
      (addLines
        (addEntry (get_or_create_client (strField r.client) bid db).2
          (mkEntry bid r d (get_or_create_client (strField r.client) bid db).2))
        [mkLine r (get_or_create_client (strField r.client) bid db).2.nextId
           (if pyLower (strField r.type) == "income" then bank.id else exp.id)
           (get_or_create_client (strField r.client) bid db).1.id 1 (rowAmount r) 0,
         mkLine r (get_or_create_client (strField r.client) bid db).2.nextId
           (if pyLower (strField r.type) == "income" then rev.id else bank.id)
           (get_or_create_client (strField r.client) bid db).1.id 2 0 (rowAmount r)],
       k + 1) := by
  obtain ⟨lb, lr, le⟩ := lookupAccount_literal bank rev exp recv
  unfold saveRow
  dsimp only
  rw [hp]
  dsimp only
  cases hb : pyLower (strField r.type) == "income" with
  | true =>
    simp only [if_true]
    rw [lb, lr]
    rfl
  | false =>
    simp only [Bool.false_eq_true, if_false]
    rw [le, lb]
    rfl

theorem provision_accs_shape (bid : Nat) (db : DB) :
    (get_or_create_default_accounts bid db).1 =
      [("Bank Account", (provisionAccount bid "1000" "Bank Account"
          AccountType.asset db).1),
       ("Revenue", (provisionAccount bid "4000" "Revenue" AccountType.income
          (provisionAccount bid "1000" "Bank Account" AccountType.asset db).2).1),
       ("Expenses", (provisionAccount bid "5000" "Expenses" AccountType.expense
          (provisionAccount bid "4000" "Revenue" AccountType.income
            (provisionAccount bid "1000" "Bank Account"
              AccountType.asset db).2).2).1),
       ("Accounts Receivable", (provisionAccount bid "1200" "Accounts Receivable"
          AccountType.asset
          (provisionAccount bid "5000" "Expenses" AccountType.expense
            (provisionAccount bid "4000" "Revenue" AccountType.income
              (provisionAccount bid "1000" "Bank Account"
                AccountType.asset db).2).2).2).1)] := rfl

/-- C3.  Posting rule correctness: a posted record of kind `"income"`
creates exactly two lines — line number 1 debits the Bank account by the
record's amount with credit 0, line number 2 credits the Revenue account
by the amount with debit 0; a record of kind `"expense"` posts line 1
debiting the Expense account and line 2 crediting the Bank account; both
lines carry the same party reference, the record's description and its
GST tag. -/
theorem posting_rule_correct (r : Row) (bid : Nat) (db : DB) (s : String)
    (d : Date) (hdate : r.date = some s) (hparse : parseIsoDate s = some d) :
    ∃ bank rev exp cl eid,
      lookupAccount (get_or_create_default_accounts bid db).1 "Bank Account" =
        some bank ∧
      lookupAccount (get_or_create_default_accounts bid db).1 "Revenue" =
        some rev ∧
      lookupAccount (get_or_create_default_accounts bid db).1 "Expenses" =
        some exp ∧
      (r.type = some "income" →
        (save_transactions_to_database [r] bid db).1.lines = db.lines ++
          [{ journal_entry_id := eid, account_id := bank.id,
             client_id := some cl, line_number := 1,
             debit_amount := rowAmount r, credit_amount := 0,
             description := strField r.description, gst_category := gstField r },
           { journal_entry_id := eid, account_id := rev.id,
             client_id := some cl, line_number := 2,
             debit_amount := 0, credit_amount := rowAmount r,
             description := strField r.description, gst_category := gstField r }]) ∧
      (r.type = some "expense" →
        (save_transactions_to_database [r] bid db).1.lines = db.lines ++
          [{ journal_entry_id := eid, account_id := exp.id,
             client_id := some cl, line_number := 1,
             debit_amount := rowAmount r, credit_amount := 0,
             description := strField r.description, gst_category := gstField r },
           { journal_entry_id := eid, account_id := bank.id,
             client_id := some cl, line_number := 2,
             debit_amount := 0, credit_amount := rowAmount r,
             description := strField r.description, gst_category := gstField r }]) := by
  obtain ⟨pcl, pen, pli, pnx⟩ := provision_fields bid db
  obtain ⟨gname, gmem, gacc, gent, glin, gnx, _, _, _⟩ :=
    gc_spec (strField r.client) bid (get_or_create_default_accounts bid db).2
  have hp2 : parseIsoDate (strField r.date) = some d := by
    rw [hdate]
    exact hparse
  have hsave : save_transactions_to_database [r] bid db =
      saveRow bid (get_or_create_default_accounts bid db).1 r
        ((get_or_create_default_accounts bid db).2, 0) := by
    unfold save_transactions_to_database
    dsimp only
    rw [List.foldl_cons, List.foldl_nil]
  refine ⟨(provisionAccount bid "1000" "Bank Account" AccountType.asset db).1,
    (provisionAccount bid "4000" "Revenue" AccountType.income
      (provisionAccount bid "1000" "Bank Account" AccountType.asset db).2).1,
    (provisionAccount bid "5000" "Expenses" AccountType.expense
      (provisionAccount bid "4000" "Revenue" AccountType.income
        (provisionAccount bid "1000" "Bank Account" AccountType.asset db).2).2).1,
    (get_or_create_client (strField r.client) bid
      (get_or_create_default_accounts bid db).2).1.id,
    (get_or_create_client (strField r.client) bid
      (get_or_create_default_accounts bid db).2).2.nextId,
    ?_, ?_, ?_, ?_, ?_⟩
  · rw [provision_accs_shape]
    exact (lookupAccount_literal _ _ _ _).1
  · rw [provision_accs_shape]
    exact (lookupAccount_literal _ _ _ _).2.1
  · rw [provision_accs_shape]
    exact (lookupAccount_literal _ _ _ _).2.2
  · intro hty
    rw [hsave, provision_accs_shape, saveRow_posts bid _ _ _ _ r _ 0 d hp2]
    have hcond : (pyLower (strField r.type) == "income") = true := by
      rw [hty]
      decide
    simp only [hcond, if_true]
    rw [addLines_lines, addEntry_lines]
    rw [glin, pli]
    rfl
  · intro hty
    rw [hsave, provision_accs_shape, saveRow_posts bid _ _ _ _ r _ 0 d hp2]
    have hcond : (pyLower (strField r.type) == "income") = false := by
      rw [hty]
      decide
    simp only [hcond, Bool.false_eq_true, if_false]
    rw [addLines_lines, addEntry_lines]
    rw [glin, pli]
    rfl

/-- Witness for C3 at a concrete input (the income record `rW` posted
into the empty store). -/
theorem posting_rule_correct_witness :
    rW.date = some "2026-01-15" ∧
    parseIsoDate "2026-01-15" = some { year := 2026, month := 1, day := 15 } ∧
    (∃ bank rev exp cl eid,
      lookupAccount (get_or_create_default_accounts 1 emptyDB).1 "Bank Account" =
        some bank ∧
      lookupAccount (get_or_create_default_accounts 1 emptyDB).1 "Revenue" =
        some rev ∧
      lookupAccount (get_or_create_default_accounts 1 emptyDB).1 "Expenses" =
        some exp ∧
      (rW.type = some "income" →
        (save_transactions_to_database [rW] 1 emptyDB).1.lines = emptyDB.lines ++
          [{ journal_entry_id := eid, account_id := bank.id,
             client_id := some cl, line_number := 1,
             debit_amount := rowAmount rW, credit_amount := 0,
             description := strField rW.description, gst_category := gstField rW },
           { journal_entry_id := eid, account_id := rev.id,
             client_id := some cl, line_number := 2,
             debit_amount := 0, credit_amount := rowAmount rW,
             description := strField rW.description, gst_category := gstField rW }]) ∧
      (rW.type = some "expense" →
        (save_transactions_to_database [rW] 1 emptyDB).1.lines = emptyDB.lines ++
          [{ journal_entry_id := eid, account_id := exp.id,
             client_id := some cl, line_number := 1,
             debit_amount := rowAmount rW, credit_amount := 0,
             description := strField rW.description, gst_category := gstField rW },
           { journal_entry_id := eid, account_id := bank.id,
             client_id := some cl, line_number := 2,
             debit_amount := 0, credit_amount := rowAmount rW,
             description := strField rW.description, gst_category := gstField rW }])) :=
  ⟨rfl, by decide,
   posting_rule_correct rW 1 emptyDB "2026-01-15"
     { year := 2026, month := 1, day := 15 } rfl (by decide)⟩

/-- The `journal_entry_lines` check constraints declared by the store
(src/database/models.py lines 251-256): `check_debit_or_credit` — a line
is debit-only, credit-only, or zero on both sides — and
`check_non_negative` — neither amount is negative. -/
def lineConstraintsOK (l : JournalEntryLine) : Bool :=
  ((decide (l.debit_amount = 0) && decide (0 < l.credit_amount)) ||
   (decide (l.credit_amount = 0) && decide (0 < l.debit_amount)) ||
   (decide (l.debit_amount = 0) && decide (l.credit_amount = 0))) &&
  (decide (0 ≤ l.debit_amount) && decide (0 ≤ l.credit_amount))

/-- `save_transactions_to_database` runs inside `with db_session()`
(src/database/connection.py lines 140-162; sessions are created with
`autoflush=False`): leaving the block commits the session, which is when
the store enforces the check constraints on every line.  If any line
violates them the commit raises, `session_scope` rolls the session back —
the store keeps its prior state — and re-raises; the outer `except` of
`save_transactions_to_database` (src/app.py line 292) swallows the
error, so the accumulated `saved_count` is returned either way. -/
def save_transactions_committed (rows : List Row) (bid : Nat) (db : DB) :
    DB × Nat :=
  let res := save_transactions_to_database rows bid db
  if res.1.lines.all lineConstraintsOK then res else (db, res.2)

theorem lineConstraintsOK_debit (r : Row) (eid aid cid n : Nat) (q : ℚ)
    (hq : 0 ≤ q) : lineConstraintsOK (mkLine r eid aid cid n q 0) = true := by
  unfold lineConstraintsOK
  dsimp only [mkLine]
  rcases eq_or_lt_of_le hq with heq | hlt
  · subst heq
    decide
  · have d1 : decide (q = 0) = false := decide_eq_false (ne_of_gt hlt)
    have d2 : decide (0 < q) = true := decide_eq_true hlt
    have d3 : decide (0 ≤ q) = true := decide_eq_true hq
    rw [d1, d2, d3]
    decide

theorem lineConstraintsOK_credit (r : Row) (eid aid cid n : Nat) (q : ℚ)
    (hq : 0 ≤ q) : lineConstraintsOK (mkLine r eid aid cid n 0 q) = true := by
  unfold lineConstraintsOK
  dsimp only [mkLine]
  rcases eq_or_lt_of_le hq with heq | hlt
  · subst heq
    decide
  · have d1 : decide (q = 0) = false := decide_eq_false (ne_of_gt hlt)
    have d2 : decide (0 < q) = true := decide_eq_true hlt
    have d3 : decide (0 ≤ q) = true := decide_eq_true hq
    rw [d1, d2, d3]
    decide

/-- C6 (amended).  `save_transactions_to_database` applies no per-record
amount or kind validation of its own: every record whose date parses is
posted into the session — a kind other than `"income"` (unknown kinds
included) goes through the expense branch, and a zero amount posts as-is.
Only a record whose processing raises (here: an unparseable date) is
skipped with a logged error, its already-flushed client row kept, while
the rest of the batch is still processed.  Stated through the commit: for
a batch of one bad-date record and one parseable record of non-negative
amount, against a store whose lines satisfy the check constraints, the
commit succeeds and exactly the one entry persists, with `saved_count`
1.  (A negative amount is a different story: its line violates
`check_non_negative` at commit time, so the WHOLE batch is rolled back by
`db_session` while `saved_count` is still returned — see the
counterexample.) -/
theorem save_posts_unvalidated_records (r1 r2 : Row) (bid : Nat) (db : DB)
    (d : Date) (h1 : parseIsoDate (strField r1.date) = none)
    (h2 : parseIsoDate (strField r2.date) = some d)
    (hq : 0 ≤ rowAmount r2)
    (hdb : db.lines.all lineConstraintsOK = true) :
    (save_transactions_committed [r1, r2] bid db).2 = 1 ∧
    ∃ e, (save_transactions_committed [r1, r2] bid db).1.entries =
      db.entries ++ [e] := by
  obtain ⟨pcl, pen, pli, pnx⟩ := provision_fields bid db
  obtain ⟨_, _, _, g1ent, g1lin, _, _, _, _⟩ :=
    gc_spec (strField r1.client) bid (get_or_create_default_accounts bid db).2
  obtain ⟨_, _, _, g2ent, g2lin, _, _, _, _⟩ :=
    gc_spec (strField r2.client) bid
      (get_or_create_client (strField r1.client) bid
        (get_or_create_default_accounts bid db).2).2
  have hchain : save_transactions_to_database [r1, r2] bid db =
      saveRow bid (get_or_create_default_accounts bid db).1 r2
        (saveRow bid (get_or_create_default_accounts bid db).1 r1
          ((get_or_create_default_accounts bid db).2, 0)) := by
    unfold save_transactions_to_database
    dsimp only
    rw [List.foldl_cons, List.foldl_cons, List.foldl_nil]
  have hall : (save_transactions_to_database [r1, r2] bid db).1.lines.all
      lineConstraintsOK = true := by
    rw [hchain, saveRow_skips _ _ r1 _ 0 h1, provision_accs_shape,
      saveRow_posts bid _ _ _ _ r2 _ 0 d h2]
    dsimp only
    rw [addLines_lines, addEntry_lines, g2lin, g1lin, pli, List.all_append,
      hdb, Bool.true_and, List.all_cons, List.all_cons, List.all_nil,
      lineConstraintsOK_debit _ _ _ _ _ _ hq,
      lineConstraintsOK_credit _ _ _ _ _ _ hq]
    rfl
  have hcommit : save_transactions_committed [r1, r2] bid db =
      save_transactions_to_database [r1, r2] bid db := by
    unfold save_transactions_committed
    dsimp only
    rw [if_pos hall]
  rw [hcommit, hchain, saveRow_skips _ _ r1 _ 0 h1, provision_accs_shape,
    saveRow_posts bid _ _ _ _ r2 _ 0 d h2]
  refine ⟨rfl, ⟨mkEntry bid r2 d
    (get_or_create_client (strField r2.client) bid
      (get_or_create_client (strField r1.client) bid
        (get_or_create_default_accounts bid db).2).2).2, ?_⟩⟩
  rw [addLines_entries, addEntry_entries, g2ent, g1ent, pen]

/-- A record with an unknown kind. -/
def rTransfer : Row :=
  { date := some "2026-01-20", client := some "Own Bank",
    description := some "Internal transfer", amount := some 5000,
    type := some "transfer", gst_category := none }

/-- A record with a negative amount. -/
def rNeg : Row :=
  { date := some "2026-01-21", client := some "X",
    description := some "Refund adjustment", amount := some (-250),
    type := some "expense", gst_category := none }

/-- C6 counterexample: a record whose kind is `"transfer"` (neither
income nor expense) is not rejected — posted through the expense rule
(line 1 debits the Expenses account, id 2; line 2 credits the Bank
account, id 0), its positive-amount lines pass the check constraints, the
commit succeeds and the JournalEntry persists, refuting the claimed
rejection of unknown kinds.  The claimed per-record skip-and-continue is
also wrong for a negative amount: its line violates `check_non_negative`
at commit, `db_session` rolls the WHOLE batch back — nothing persists,
not even the valid transfer record — yet `saved_count` 2 is still
returned because the outer `except` swallows the error. -/
theorem unknown_kind_posts_as_expense :
    (save_transactions_committed [rTransfer] 1 emptyDB).2 = 1 ∧
    (save_transactions_committed [rTransfer] 1 emptyDB).1.entries.length = 1 ∧
    ((save_transactions_committed [rTransfer] 1 emptyDB).1.lines.map
      (fun l => (l.account_id, l.debit_amount, l.credit_amount))) =
      [(2, 5000, 0), (0, 0, 5000)] ∧
    (save_transactions_committed [rTransfer, rNeg] 1 emptyDB).1 = emptyDB ∧
    (save_transactions_committed [rTransfer, rNeg] 1 emptyDB).2 = 2 := by
  exact ⟨by decide, by decide, by decide, by decide, by decide⟩

/-- Witness for C6 (amended) at a concrete input: a batch of one
bad-date record and one unknown-kind record posts exactly one entry. -/
def rBadDate : Row :=
  { date := some "not a date", client := some "Y",
    description := some "???", amount := some 10,
    type := some "income", gst_category := none }

/-- Witness for C6 (amended). -/
theorem save_posts_unvalidated_records_witness :
    (parseIsoDate (strField rBadDate.date) = none ∧
     parseIsoDate (strField rTransfer.date) =
       some { year := 2026, month := 1, day := 20 } ∧
     0 ≤ rowAmount rTransfer ∧
     emptyDB.lines.all lineConstraintsOK = true) ∧
    ((save_transactions_committed [rBadDate, rTransfer] 1 emptyDB).2 = 1 ∧
     ∃ e, (save_transactions_committed [rBadDate, rTransfer] 1 emptyDB).1.entries =
       emptyDB.entries ++ [e]) :=
  ⟨⟨by decide, by decide, by decide, by decide⟩,
   save_posts_unvalidated_records rBadDate rTransfer 1 emptyDB
     { year := 2026, month := 1, day := 20 } (by decide) (by decide)
     (by decide) (by decide)⟩

theorem sliceTo_of_parse {s : String} {d : Date} (h : parseIsoDate s = some d) :
    sliceTo 10 s = s := by
  unfold parseIsoDate at h
  unfold sliceTo
  cases s with
  | mk data =>
    match data, h with
    | [y1, y2, y3, y4, h1, m1, m2, h2, d1, d2], _ => rfl

theorem norm_if_empty (s : String) :
    (if (s == "") = true then "" else normalizeText s) = normalizeText s := by
  cases hb : s == "" with
  | false => simp [hb]
  | true =>
    rw [beq_iff_eq] at hb
    subst hb
    decide

theorem accountTypeOf_mem {db : DB} (hwf : DB.WF db) {a : ChartOfAccount}
    (ha : a ∈ db.accounts) : accountTypeOf db a.id = some a.account_type := by
  unfold accountTypeOf
  rw [find?_of_mem_nodup (fun x => x.id) db.accounts a hwf.2.1 ha]
  rfl

theorem validRow_extract (r : Row) (h : validRow r = true) :
    ∃ s d q t cs ds, r.date = some s ∧ r.client = some cs ∧
      r.description = some ds ∧ r.amount = some q ∧ r.type = some t ∧
      parseIsoDate s = some d ∧ renderDate d = s ∧ 0 < q ∧
      (t = "income" ∨ t = "expense") := by
  unfold validRow at h
  cases hd : r.date with
  | none => rw [hd] at h; cases h
  | some s =>
    cases hc : r.client with
    | none => rw [hd, hc] at h; cases h
    | some cs =>
      cases hds : r.description with
      | none => rw [hd, hc, hds] at h; cases h
      | some ds =>
        cases ha : r.amount with
        | none => rw [hd, hc, hds, ha] at h; cases h
        | some q =>
          cases ht : r.type with
          | none => rw [hd, hc, hds, ha, ht] at h; cases h
          | some t =>
            rw [hd, hc, hds, ha, ht] at h
            dsimp only at h
            cases hp : parseIsoDate s with
            | none =>
              rw [hp] at h
              simp at h
            | some d =>
              rw [hp] at h
              simp only [Bool.and_eq_true, Bool.or_eq_true, beq_iff_eq,
                decide_eq_true_eq] at h
              exact ⟨s, d, q, t, cs, ds, rfl, rfl, rfl, rfl, rfl, hp,
                h.1.1, h.1.2, h.2⟩

theorem recon_two_lines (db3 : DB) (cl : Client) (q : ℚ) (hq : 0 < q)
    (aid1 : Nat) (a2 : ChartOfAccount) (r : Row) (eid : Nat)
    (hfind : findClientById db3 cl.id = some cl)
    (hA2 : accountTypeOf db3 a2.id = some a2.account_type) :
    List.foldl (fun st l => reconStep db3 st l) ("", 0, "expense")
      [mkLine r eid aid1 cl.id 1 q 0, mkLine r eid a2.id cl.id 2 0 q] =
      (cl.client_name, q,
        match a2.account_type with
        | AccountType.income => "income"
        | _ => "expense") := by
  rw [List.foldl_cons, List.foldl_cons, List.foldl_nil]
  have step1 : reconStep db3 ("", 0, "expense") (mkLine r eid aid1 cl.id 1 q 0) =
      (cl.client_name, q,
        match accountTypeOf db3 aid1 with
        | some AccountType.asset => "income"
        | _ => "expense") := by
    unfold reconStep
    dsimp only [mkLine]
    rw [hfind]
    rw [if_pos hq]
  rw [step1]
  unfold reconStep
  dsimp only [mkLine]
  rw [hfind]
  rw [if_neg (by norm_num), if_pos hq, hA2]
  cases a2.account_type <;> rfl

theorem saveRow_valid_sig (bid : Nat) (accs : List (String × ChartOfAccount))
    (r : Row) (db : DB) (k : Nat) (hwf : DB.WF db) (hctx : AccCtx accs db)
    (hval : validRow r = true) :
    ∃ e, (saveRow bid accs r (db, k)).1.entries = db.entries ++ [e] ∧
      e.business_id = bid ∧
      (∀ s2 d2, r.date = some s2 → parseIsoDate s2 = some d2 →
        e.entry_date = d2) ∧
      e.id < (saveRow bid accs r (db, k)).1.nextId ∧
      reconstructSignature (saveRow bid accs r (db, k)).1 e =
        create_transaction_signature r := by
  obtain ⟨s, d, q, t, cs, ds, hd, hc, hdesc, ha, ht, hp, hrender, hq, hty⟩ :=
    validRow_extract r hval
  obtain ⟨bank, rev, exp, recv, haccs, hbmem, hrmem, hemem, hbty, hrty, hety⟩ := hctx
  obtain ⟨gname, gmem, gacc, gent, glin, gnx, ⟨gxs, gcl, gfresh⟩, gcust, gwfi⟩ :=
    gc_spec (strField r.client) bid db
  obtain ⟨gwf, gid, gfind⟩ := gwfi hwf
  have hp2 : parseIsoDate (strField r.date) = some d := by
    rw [hd]
    exact hp
  subst haccs
  rw [saveRow_posts bid bank rev exp recv r db k d hp2]
  have hamt : rowAmount r = q := by
    unfold rowAmount
    rw [ha]
  have hcn : (get_or_create_client (strField r.client) bid db).1.client_name = cs := by
    rw [gname, hc]
    rfl
  have htN : (match r.type with | some ts => pyStrip (pyLower ts) | none => "") =
      pyStrip (pyLower t) := by
    rw [ht]
  -- the if-condition value and the resolved accounts per kind
  have hA : ∃ (b : Bool) (A2 : ChartOfAccount),
      (pyLower (strField r.type) == "income") = b ∧
      (if b then rev.id else bank.id) = A2.id ∧ A2 ∈ db.accounts ∧
      (match A2.account_type with
        | AccountType.income => "income"
        | _ => "expense") = pyStrip (pyLower t) := by
    rcases hty with rfl | rfl
    · refine ⟨true, rev, ?_, by simp, hrmem, ?_⟩
      · rw [ht]
        decide
      · rw [hrty]
        decide
    · refine ⟨false, bank, ?_, by simp, hbmem, ?_⟩
      · rw [ht]
        decide
      · rw [hbty]
        decide
  obtain ⟨b, A2, hcond, hA2id, hA2mem, hA2ty⟩ := hA
  rw [hcond]
  refine ⟨mkEntry bid r d (get_or_create_client (strField r.client) bid db).2,
    ?_, rfl, ?_, ?_, ?_⟩
  · rw [addLines_entries, addEntry_entries, gent]
  · intro s2 d2 h1 h2
    rw [hd, Option.some.injEq] at h1
    subst h1
    rw [hp, Option.some.injEq] at h2
    exact h2
  · rw [addLines_nextId, addEntry_nextId, mkEntry_id]
    exact Nat.lt_succ_self _
  · -- signature equality
    set gdb := (get_or_create_client (strField r.client) bid db).2 with hgdb
    set cl0 := (get_or_create_client (strField r.client) bid db).1 with hcl0
    set entry := mkEntry bid r d gdb with hentry
    set L1 := mkLine r gdb.nextId (if b then bank.id else exp.id) cl0.id 1
      (rowAmount r) 0 with hL1
    set L2 := mkLine r gdb.nextId (if b then rev.id else bank.id) cl0.id 2 0
      (rowAmount r) with hL2
    set db3 := addLines (addEntry gdb entry) [L1, L2] with hdb3
    have hel : entryLines db3 entry = [L1, L2] := by
      unfold entryLines
      rw [hdb3, addLines_lines, addEntry_lines, hgdb, glin]
      rw [List.filter_append]
      have hleft : db.lines.filter (fun l => l.journal_entry_id == entry.id) = [] := by
        rw [List.filter_eq_nil_iff]
        intro l hl
        simp only [beq_iff_eq, hentry, mkEntry_id]
        intro hEq
        have hlt := (hwf.2.2.2.2.2 l hl).1
        omega
      rw [hleft, List.nil_append]
      have hj1 : (L1.journal_entry_id == entry.id) = true := by
        rw [hL1, mkLine_journal_entry_id, hentry, mkEntry_id]
        exact beq_self_eq_true _
      have hj2 : (L2.journal_entry_id == entry.id) = true := by
        rw [hL2, mkLine_journal_entry_id, hentry, mkEntry_id]
        exact beq_self_eq_true _
      simp [List.filter, hj1, hj2]
    have hfind3 : findClientById db3 cl0.id = some cl0 := gfind
    have hA2acc : accountTypeOf db3 A2.id = some A2.account_type := by
      have hsame : accountTypeOf db3 A2.id = accountTypeOf db A2.id := by
        unfold accountTypeOf
        rw [hdb3, addLines_accounts, addEntry_accounts, hgdb, gacc]
      rw [hsame]
      exact accountTypeOf_mem hwf hA2mem
    unfold reconstructSignature reconstructData
    dsimp only
    rw [hel, hL1, hL2, hamt, hA2id]
    rw [recon_two_lines db3 cl0 q hq _ A2 r gdb.nextId hfind3 hA2acc]
    rw [hA2ty]
    unfold create_transaction_signature md5 signatureData
    rw [hd, hc, hdesc, ha, ht]
    dsimp only
    rw [sliceTo_of_parse hp]
    have hdate3 : entry.entry_date = d := rfl
    rw [hdate3, hrender, hcn]
    have hdesc3 : entry.description = ds := by
      rw [hentry]
      show strField r.description = ds
      rw [hdesc]
      rfl
    rw [hdesc3]
    rw [norm_if_empty cs, norm_if_empty ds]
    have hidem : pyStrip (pyLower (pyStrip (pyLower t))) = pyStrip (pyLower t) := by
      rcases hty with rfl | rfl <;> decide
    rw [hidem]

theorem AccCtx_of_accounts_eq {accs : List (String × ChartOfAccount)}
    {db1 db2 : DB} (h : AccCtx accs db1) (heq : db2.accounts = db1.accounts) :
    AccCtx accs db2 := by
  obtain ⟨bank, rev, exp, recv, ha, hb, hr, he, tb, tr, te⟩ := h
  exact ⟨bank, rev, exp, recv, ha, heq ▸ hb, heq ▸ hr, heq ▸ he, tb, tr, te⟩

theorem save_fold_sigs (bid : Nat) (accs : List (String × ChartOfAccount)) :
    ∀ (rows : List Row) (db : DB) (k : Nat), DB.WF db → AccCtx accs db →
    (∀ r ∈ rows, validRow r = true) →
    ∀ r ∈ rows, ∃ e,
      e ∈ (rows.foldl (fun st r2 => saveRow bid accs r2 st) (db, k)).1.entries ∧
      e.business_id = bid ∧
      (∀ s2 d2, r.date = some s2 → parseIsoDate s2 = some d2 →
        e.entry_date = d2) ∧
      reconstructSignature
          (rows.foldl (fun st r2 => saveRow bid accs r2 st) (db, k)).1 e =
        create_transaction_signature r := by
  intro rows
  induction rows with
  | nil =>
    intro db k _ _ _ r hr
    cases hr
  | cons r0 rows ih =>
    intro db k hwf hctx hvalall r hr
    obtain ⟨hwfS, hgrowS, _, _⟩ := saveRow_master bid accs r0 db k hwf
    obtain ⟨e0, he0ent, he0bid, he0date, he0id, he0sig⟩ :=
      saveRow_valid_sig bid accs r0 db k hwf hctx
        (hvalall r0 (List.mem_cons_self r0 rows))
    rcases hst : saveRow bid accs r0 (db, k) with ⟨dbm, km⟩
    rw [hst] at hwfS hgrowS he0ent he0id he0sig
    dsimp only at hwfS hgrowS he0ent he0id he0sig
    have hctxm : AccCtx accs dbm := AccCtx_of_accounts_eq hctx hgrowS.1
    simp only [List.foldl_cons, hst]
    obtain ⟨hwfF, hgrowF, _, _⟩ := save_fold_master bid accs rows dbm km hwfS
    rcases List.mem_cons.mp hr with rfl | hmem
    · refine ⟨e0, ?_, he0bid, he0date, ?_⟩
      · obtain ⟨es, hes⟩ := hgrowF.2.2.1
        rw [hes, he0ent]
        exact List.mem_append_left _ (List.mem_append_right _
          (List.mem_singleton.mpr rfl))
      · rw [reconstructSignature_stable hwfS hgrowF e0 he0id]
        exact he0sig
    · exact ih dbm km hwfS hctxm
        (fun r2 h2 => hvalall r2 (List.mem_cons_of_mem r0 h2)) r hmem

theorem contains_of_mem {l : List String} {a : String} (h : a ∈ l) :
    l.contains a = true := by
  induction l with
  | nil => cases h
  | cons b l ih =>
    rcases List.mem_cons.mp h with rfl | h2
    · simp [List.contains, List.elem]
    · simp only [List.contains, List.elem]
      cases hb : a == b
      · exact ih h2
      · rfl

/-- C1 (amended).  Dedup idempotence within the lookback window: for a
batch of structurally valid records (canonical ISO dates, positive
amounts, income/expense kinds) whose dates all fall inside the rolling
six-month lookback window anchored at "now", posting the batch via
`save_transactions_to_database` and re-running
`filter_duplicate_transactions` on the identical batch classifies every
record as a duplicate: zero new records, duplicate count `rows.length`.
Records dated before the window escape detection (see the
counterexample), which is what restricts the original claim. -/
theorem dedup_idempotent_within_window (rows : List Row) (bid : Nat)
    (db : DB) (today : Date) (hwf : DB.WF db)
    (hcan : canonicalAccounts bid db = true)
    (hval : ∀ r ∈ rows, validRow r = true ∧ inWindow today r = true) :
    filter_duplicate_transactions rows bid
      (save_transactions_to_database rows bid db).1 today (Except.ok ()) =
      ([], rows.length) := by
  obtain ⟨hctx, pwf, pcl, pen, pli, pnx⟩ := provision_spec bid db hwf hcan
  have hsave : save_transactions_to_database rows bid db =
      rows.foldl (fun st r2 =>
        saveRow bid (get_or_create_default_accounts bid db).1 r2 st)
        ((get_or_create_default_accounts bid db).2, 0) := rfl
  rw [hsave]
  have hmem : ∀ r ∈ rows,
      (existingSignatureList bid
        (rows.foldl (fun st r2 =>
          saveRow bid (get_or_create_default_accounts bid db).1 r2 st)
          ((get_or_create_default_accounts bid db).2, 0)).1 today).contains
        (create_transaction_signature r) = true := by
    intro r hr
    obtain ⟨e, hee, heb, hed, hes⟩ := save_fold_sigs bid
      (get_or_create_default_accounts bid db).1 rows
      (get_or_create_default_accounts bid db).2 0 pwf hctx
      (fun r2 h2 => (hval r2 h2).1) r hr
    apply contains_of_mem
    unfold existingSignatureList
    rw [List.mem_map]
    refine ⟨e, ?_, hes⟩
    rw [List.mem_filter]
    refine ⟨hee, ?_⟩
    rw [Bool.and_eq_true, beq_iff_eq]
    refine ⟨heb, ?_⟩
    obtain ⟨s, d, q, t, cs, ds, hd, _, _, _, _, hp, _, _, _⟩ :=
      validRow_extract r (hval r hr).1
    have hw := (hval r hr).2
    unfold inWindow at hw
    rw [hd] at hw
    dsimp only at hw
    rw [hp] at hw
    rw [hed s d hd hp]
    exact hw
  unfold filter_duplicate_transactions
  dsimp only
  have h1 : rows.filter (fun r =>
      !((existingSignatureList bid
        (rows.foldl (fun st r2 =>
          saveRow bid (get_or_create_default_accounts bid db).1 r2 st)
          ((get_or_create_default_accounts bid db).2, 0)).1 today).contains
        (create_transaction_signature r))) = [] := by
    rw [List.filter_eq_nil_iff]
    intro r hr
    rw [hmem r hr]
    simp
  have h2 : rows.filter (fun r =>
      (existingSignatureList bid
        (rows.foldl (fun st r2 =>
          saveRow bid (get_or_create_default_accounts bid db).1 r2 st)
          ((get_or_create_default_accounts bid db).2, 0)).1 today).contains
        (create_transaction_signature r)) = rows := by
    rw [List.filter_eq_self]
    intro r hr
    exact hmem r hr
  rw [h1, h2]

/-- The reference day for the C1 witness and counterexample. -/
def todayW : Date := { year := 2026, month := 10, day := 12 }

/-- An in-window income record. -/
def rWin1 : Row :=
  { date := some "2026-09-15", client := some "TechCorp",
    description := some "Web dev", amount := some 15000,
    type := some "income", gst_category := none }

/-- An in-window expense record. -/
def rWin2 : Row :=
  { date := some "2026-10-01", client := some "AWS",
    description := some "Cloud sub", amount := some 1200,
    type := some "expense", gst_category := some "" }

/-- Witness for C1 (amended) at a concrete input. -/
theorem dedup_idempotent_within_window_witness :
    (DB.WF emptyDB ∧ canonicalAccounts 1 emptyDB = true ∧
      (∀ r ∈ [rWin1, rWin2], validRow r = true ∧ inWindow todayW r = true)) ∧
    filter_duplicate_transactions [rWin1, rWin2] 1
      (save_transactions_to_database [rWin1, rWin2] 1 emptyDB).1 todayW
      (Except.ok ()) = ([], 2) :=
  ⟨⟨by decide, by decide, by decide⟩,
   dedup_idempotent_within_window [rWin1, rWin2] 1 emptyDB todayW
     (by decide) (by decide) (by decide)⟩

/-- A valid record dated long before the lookback window. -/
def rOld : Row :=
  { date := some "2020-01-01", client := some "TechCorp",
    description := some "Web dev", amount := some 15000,
    type := some "income", gst_category := none }

/-- C1 counterexample: posting the single-record batch `[rOld]` — a valid
transaction record — and re-submitting the identical batch yields zero
detected duplicates and returns the record as new, because the posted
entry's date (2020-01-01) lies outside the six-month lookback window of
the duplicate query; the claim requires zero new records and a duplicate
count of 1. -/
theorem dedup_idempotence_fails_outside_window :
    validRow rOld = true ∧
    filter_duplicate_transactions [rOld] 1
      (save_transactions_to_database [rOld] 1 emptyDB).1 todayW
      (Except.ok ()) = ([rOld], 0) := by
  exact ⟨by decide, by decide⟩
